import Mathlib

/-!
Verification of the distributed task orchestration platform's core domain
model: task/workflow state machines, the dependency-graph algorithms of the
`Workflow` aggregate, the retry policy, and the orchestrator event handlers.

The definitions are a shallow embedding of the Python sources:
  * `src/core/constants.py`                       (enums and limits)
  * `src/domain/value_objects/task_status.py`     (TaskStatus)
  * `src/domain/value_objects/workflow_status.py` (WorkflowStatus)
  * `src/domain/value_objects/retry_policy.py`    (RetryPolicy)
  * `src/domain/value_objects/task_config.py`     (TaskConfig)
  * `src/domain/entities/task.py`                 (Task)
  * `src/domain/entities/workflow.py`             (Workflow)
  * `src/application/services/workflow_orchestrator.py`
  * `src/application/use_cases/create_workflow.py`

Python `datetime.utcnow()` is modelled by passing an explicit `now : Nat`
to every mutating operation.  Python exceptions are modelled with
`Except PyError`; where a handler performs repository writes before an
exception escapes, the handler returns the store it produced alongside the
error, matching the flushed-writes-persist behaviour of the repositories.
Identifiers (UUIDs) are modelled as `Nat`.
-/

namespace Orchestration

/-- `TaskStatusEnum` from `src/core/constants.py`. -/
inductive TaskStatusEnum where
  | pending
  | queued
  | running
  | succeeded
  | failed
  | retrying
  | cancelled
  | skipped
  | timeout
deriving DecidableEq, Repr

/-- `WorkflowStatusEnum` from `src/core/constants.py`. -/
inductive WorkflowStatusEnum where
  | draft
  | pending
  | running
  | paused
  | succeeded
  | failed
  | cancelled
  | compensating
  | compensated
deriving DecidableEq, Repr

/-- `RetryStrategyEnum` from `src/core/constants.py`. -/
inductive RetryStrategyEnum where
  | none
  | fixed
  | exponential
  | linear
deriving DecidableEq, Repr

/-- `ExecutionModeEnum` from `src/core/constants.py`. -/
inductive ExecutionModeEnum where
  | sequential
  | parallel
  | dag
deriving DecidableEq, Repr

/-- `PriorityEnum` from `src/core/constants.py`. -/
inductive PriorityEnum where
  | low
  | normal
  | high
  | critical
deriving DecidableEq, Repr

/-- `MAX_TASKS_PER_WORKFLOW` from `src/core/constants.py` (declared among the
workflow constraints; `Workflow.add_task` never consults it). -/
def MAX_TASKS_PER_WORKFLOW : Nat := 1000

/-- `MAX_WORKFLOW_DEPTH` from `src/core/constants.py`. -/
def MAX_WORKFLOW_DEPTH : Nat := 10

/-- The exceptions the embedded code can raise, from
`src/core/exceptions.py` plus the Python builtins the code can hit
(`AttributeError` from a missing dataclass field, `TypeError` from an
unexpected keyword argument, `ValueError` from dataclass validation). -/
inductive PyError where
  | invalidEntityStateError (msg : String)
  | circularDependencyError (msg : String)
  | maxRetryExceededError (msg : String)
  | workflowExecutionError (msg : String)
  | entityNotFoundError (msg : String)
  | attributeError (msg : String)
  | typeError (msg : String)
  | valueError (msg : String)
deriving DecidableEq, Repr

/-- Opaque stand-in for Python `dict[str, Any]` payloads/results; the code
under verification never inspects their contents. -/
abbrev PyDict := List (String × String)

/-- `TaskStatus` value object (`src/domain/value_objects/task_status.py`).
`updated_at` is the tick at which the status was produced. -/
structure TaskStatus where
  status : TaskStatusEnum
  updatedAt : Nat
  message : Option String := none
deriving DecidableEq, Repr

namespace TaskStatus

/-- `TaskStatus.is_terminal`: status ∈ {succeeded, failed, cancelled, skipped}. -/
def isTerminal (s : TaskStatus) : Bool :=
  s.status = TaskStatusEnum.succeeded ∨ s.status = TaskStatusEnum.failed ∨
    s.status = TaskStatusEnum.cancelled ∨ s.status = TaskStatusEnum.skipped

/-- `TaskStatus.is_active`: status ∈ {running, retrying}. -/
def isActive (s : TaskStatus) : Bool :=
  s.status = TaskStatusEnum.running ∨ s.status = TaskStatusEnum.retrying

/-- `TaskStatus.is_waiting`: status ∈ {pending, queued}. -/
def isWaiting (s : TaskStatus) : Bool :=
  s.status = TaskStatusEnum.pending ∨ s.status = TaskStatusEnum.queued

/-- `TaskStatus.can_retry`: status ∈ {failed, timeout}. -/
def canRetry (s : TaskStatus) : Bool :=
  s.status = TaskStatusEnum.failed ∨ s.status = TaskStatusEnum.timeout

end TaskStatus

/-- `WorkflowStatus` value object (`src/domain/value_objects/workflow_status.py`). -/
structure WorkflowStatus where
  status : WorkflowStatusEnum
  updatedAt : Nat
  message : Option String := none
deriving DecidableEq, Repr

namespace WorkflowStatus

/-- `WorkflowStatus.is_terminal`. -/
def isTerminal (s : WorkflowStatus) : Bool :=
  s.status = WorkflowStatusEnum.succeeded ∨ s.status = WorkflowStatusEnum.failed ∨
    s.status = WorkflowStatusEnum.cancelled ∨ s.status = WorkflowStatusEnum.compensated

/-- `WorkflowStatus.is_active`: status ∈ {running, compensating}. -/
def isActive (s : WorkflowStatus) : Bool :=
  s.status = WorkflowStatusEnum.running ∨ s.status = WorkflowStatusEnum.compensating

/-- `WorkflowStatus.can_pause`: status = running. -/
def canPause (s : WorkflowStatus) : Bool :=
  s.status = WorkflowStatusEnum.running

/-- `WorkflowStatus.can_resume`: status = paused. -/
def canResume (s : WorkflowStatus) : Bool :=
  s.status = WorkflowStatusEnum.paused

/-- `WorkflowStatus.can_cancel`: status ∈ {pending, running, paused}. -/
def canCancel (s : WorkflowStatus) : Bool :=
  s.status = WorkflowStatusEnum.pending ∨ s.status = WorkflowStatusEnum.running ∨
    s.status = WorkflowStatusEnum.paused

end WorkflowStatus

/-- `RetryPolicy` value object (`src/domain/value_objects/retry_policy.py`).
The dataclass declares exactly these five fields; in particular it has no
`enabled` field, although `Task._can_retry`, the mappers and the
create-workflow use case all refer to one. -/
structure RetryPolicy where
  maxRetries : Int := 5
  strategy : RetryStrategyEnum := RetryStrategyEnum.exponential
  initialDelay : Int := 1
  maxDelay : Int := 300
  backoffBase : Int := 2
deriving DecidableEq, Repr

namespace RetryPolicy

/-- The conditions `RetryPolicy.__post_init__` validates; a constructed
policy satisfies them. -/
def valid (p : RetryPolicy) : Prop :=
  0 ≤ p.maxRetries ∧ 0 ≤ p.initialDelay ∧ p.initialDelay ≤ p.maxDelay ∧
    1 ≤ p.backoffBase

instance (p : RetryPolicy) : Decidable p.valid := by
  unfold valid; infer_instance

/-- `RetryPolicy.calculate_delay` (`attempt` is the 0-indexed retry attempt;
the code first returns 0 whenever `attempt >= max_retries`, then dispatches
on the strategy, capping linear and exponential delays at `max_delay`). -/
def calculateDelay (p : RetryPolicy) (attempt : Nat) : Int :=
  if p.maxRetries ≤ (attempt : Int) then 0
  else
    match p.strategy with
    | RetryStrategyEnum.none => 0
    | RetryStrategyEnum.fixed => p.initialDelay
    | RetryStrategyEnum.linear => min (p.initialDelay * ((attempt : Int) + 1)) p.maxDelay
    | RetryStrategyEnum.exponential =>
        min (p.initialDelay * p.backoffBase ^ attempt) p.maxDelay

/-- `RetryPolicy.should_retry`. -/
def shouldRetry (p : RetryPolicy) (attempt : Nat) : Bool :=
  (attempt : Int) < p.maxRetries

end RetryPolicy

/-- `TaskConfig` value object (`src/domain/value_objects/task_config.py`).
`task_type` is irrelevant to every claim and is kept as the enum. -/
structure TaskConfig where
  taskType : String := "http"
  timeoutSeconds : Int := 300
  priority : PriorityEnum := PriorityEnum.normal
  retryPolicy : RetryPolicy := {}
  idempotencyKey : Option String := none
  maxParallelInstances : Int := 1
deriving DecidableEq, Repr

/-- `Task` entity (`src/domain/entities/task.py`): immutable identity and
configuration plus mutable execution state. -/
structure Task where
  id : Nat
  name : String
  config : TaskConfig
  payload : PyDict := []
  workflowId : Nat
  dependencies : List Nat := []
  compensationTaskId : Option Nat := none
  status : TaskStatus
  result : Option PyDict := none
  error : Option String := none
  retryCount : Int := 0
  startedAt : Option Nat := none
  completedAt : Option Nat := none
deriving DecidableEq, Repr

namespace Task

/-- `Task.__init__`: a fresh task starts in `pending` with clean execution
state. -/
def mk0 (id : Nat) (name : String) (config : TaskConfig) (payload : PyDict)
    (workflowId : Nat) (dependencies : List Nat)
    (compensationTaskId : Option Nat) (now : Nat) : Task :=
  { id := id, name := name, config := config, payload := payload,
    workflowId := workflowId, dependencies := dependencies,
    compensationTaskId := compensationTaskId,
    status := { status := TaskStatusEnum.pending, updatedAt := now } }

/-- `Task.start`: allowed from waiting statuses; moves to running and sets
`started_at`. -/
def start (t : Task) (now : Nat) : Except PyError Task :=
  if ¬ t.status.isWaiting then
    Except.error (PyError.invalidEntityStateError "Cannot start task in this state")
  else
    Except.ok { t with
      status := { status := TaskStatusEnum.running, updatedAt := now },
      startedAt := some now }

/-- `Task.complete`: allowed from active statuses; moves to succeeded, sets
`result` and `completed_at`. -/
def complete (t : Task) (result : PyDict) (now : Nat) : Except PyError Task :=
  if ¬ t.status.isActive then
    Except.error (PyError.invalidEntityStateError "Cannot complete task in this state")
  else
    Except.ok { t with
      status := { status := TaskStatusEnum.succeeded, updatedAt := now,
                  message := some "Task completed successfully" },
      result := some result,
      completedAt := some now }

/-- `Task._can_retry` evaluates `retry_policy.enabled and ...`, but the
`RetryPolicy` dataclass has no `enabled` field, so the attribute access
raises `AttributeError` before anything else happens. -/
def canRetryCheck (t : Task) : Except PyError Bool :=
  Except.error
    (PyError.attributeError "RetryPolicy object has no attribute enabled")

/-- `Task.fail`: guard on active status, record the error, then branch on
`_can_retry()` — which raises, see `Task.canRetryCheck`. -/
def fail (t : Task) (error : String) (now : Nat) : Except PyError Task :=
  if ¬ t.status.isActive then
    Except.error (PyError.invalidEntityStateError "Cannot fail task in this state")
  else
    match canRetryCheck { t with error := some error } with
    | Except.error e => Except.error e
    | Except.ok canR =>
        if canR then
          Except.ok { t with
            error := some error,
            retryCount := t.retryCount + 1,
            status := { status := TaskStatusEnum.retrying, updatedAt := now,
                        message := some "Retrying" } }
        else
          Except.ok { t with
            error := some error,
            status := { status := TaskStatusEnum.failed, updatedAt := now,
                        message := some error },
            completedAt := some now }

/-- `Task.retry`: guard on `status.can_retry()`, then `_can_retry()` — which
raises, see `Task.canRetryCheck`. -/
def retry (t : Task) (now : Nat) : Except PyError Task :=
  if ¬ t.status.canRetry then
    Except.error (PyError.invalidEntityStateError "Cannot retry task in this state")
  else
    match canRetryCheck t with
    | Except.error e => Except.error e
    | Except.ok canR =>
        if ¬ canR then
          Except.error (PyError.maxRetryExceededError "Max retries exceeded")
        else
          Except.ok { t with
            retryCount := t.retryCount + 1,
            status := { status := TaskStatusEnum.running, updatedAt := now,
                        message := some "Retry attempt" },
            startedAt := some now }

/-- `Task.cancel`: allowed from any non-terminal status. -/
def cancel (t : Task) (now : Nat) : Except PyError Task :=
  if t.status.isTerminal then
    Except.error (PyError.invalidEntityStateError "Cannot cancel task in this state")
  else
    Except.ok { t with
      status := { status := TaskStatusEnum.cancelled, updatedAt := now,
                  message := some "Task cancelled by user" },
      completedAt := some now }

/-- `Task.skip`: no precondition whatsoever — it overwrites the status from
any state, including terminal ones. -/
def skip (t : Task) (mockResult : Option PyDict) (now : Nat) : Task :=
  { t with
    status := { status := TaskStatusEnum.skipped, updatedAt := now,
                message := some "Task skipped" },
    result := some (mockResult.getD []),
    completedAt := some now }

/-- `Task.timeout`: no precondition whatsoever — it overwrites the status
from any state, including terminal ones. -/
def timeoutOp (t : Task) (now : Nat) : Task :=
  { t with
    status := { status := TaskStatusEnum.timeout, updatedAt := now,
                message := some "Task exceeded timeout" },
    error := some "Task execution timeout",
    completedAt := some now }

/-- `Task.queue`: allowed only from pending. -/
def queue (t : Task) (now : Nat) : Except PyError Task :=
  if t.status.status ≠ TaskStatusEnum.pending then
    Except.error (PyError.invalidEntityStateError "Cannot queue task in this state")
  else
    Except.ok { t with
      status := { status := TaskStatusEnum.queued, updatedAt := now } }

/-- `Task.has_dependencies`. -/
def hasDependencies (t : Task) : Bool :=
  t.dependencies.length > 0

/-- `Task.is_ready_to_execute`: true when the task has no dependencies, else
when every dependency id is among the completed ids. -/
def isReadyToExecute (t : Task) (completedTaskIds : List Nat) : Bool :=
  if ¬ t.hasDependencies then true
  else t.dependencies.all (fun depId => depId ∈ completedTaskIds)

end Task

/-! ### Association lists with Python-dict assignment semantics

Python dict assignment `d[k] = v` keeps the first-insertion position of an
existing key and updates its value, or appends a new key. -/

/-- `d[k] = v` on an association list. -/
def upsert {α : Type} (l : List (Nat × α)) (k : Nat) (v : α) : List (Nat × α) :=
  match l with
  | [] => [(k, v)]
  | p :: rest => if p.1 = k then (k, v) :: rest else p :: upsert rest k v

/-- First value stored under a key, if any. -/
def lookupA {α : Type} (l : List (Nat × α)) (k : Nat) : Option α :=
  match l with
  | [] => none
  | p :: rest => if p.1 = k then some p.2 else lookupA rest k

/-! ### The dependency graph and `Workflow._creates_cycle`

The Python code builds `graph : dict[UUID, set[UUID]]` mapping each task id
to its dependency ids and runs a DFS with shared `visited` and `rec_stack`
sets: a neighbour found on the recursion stack signals a cycle.  The
embedding threads `visited` explicitly, keeps `rec_stack` as the list of
ancestors of the current node (which is exactly the Python set's content,
since every frame removes its node on a cycle-free return), and uses fuel
for termination; `createsCycleB` supplies fuel that is never exhausted. -/

/-- Adjacency of a node: `graph.get(node, set())`. -/
def adjOf (g : List (Nat × List Nat)) (n : Nat) : List Nat :=
  (lookupA g n).getD []

/-- Every node that can appear during the traversal: the keys and all
dependency targets. -/
def allNodes (g : List (Nat × List Nat)) : List Nat :=
  g.map Prod.fst ++ (g.map Prod.snd).flatten

/-- The body of the Python `has_cycle` recursion: process the pending
neighbour list of the node on top of `recStack`.  A neighbour already
visited is a cycle iff it is on the recursion stack; an unvisited
neighbour is entered (consuming one fuel), which marks it visited, pushes
it on the recursion stack and recurses into its adjacency list.  Returns
the verdict together with the updated `visited`. -/
def dfsN (g : List (Nat × List Nat)) :
    Nat → List Nat → List Nat → List Nat → Bool × List Nat
  | _, [], visited, _ => (false, visited)
  | fuel, n :: rest, visited, recStack =>
      if n ∈ visited then
        if n ∈ recStack then (true, visited)
        else dfsN g fuel rest visited recStack
      else
        match fuel with
        | 0 => (false, visited)
        | f + 1 =>
            let r := dfsN g f (adjOf g n) (n :: visited) (n :: recStack)
            if r.1 then (true, r.2) else dfsN g (f + 1) rest r.2 recStack
  termination_by fuel pending => (fuel, pending.length)

/-- The top-level loop of `Workflow._creates_cycle`: start a DFS from every
not-yet-visited key, in key order. -/
def dfsForest (g : List (Nat × List Nat)) :
    Nat → List Nat → List Nat → Bool
  | _, [], _ => false
  | fuel, k :: rest, visited =>
      if k ∈ visited then dfsForest g fuel rest visited
      else
        match fuel with
        | 0 => false
        | f + 1 =>
            let r := dfsN g f (adjOf g k) (k :: visited) [k]
            if r.1 then true else dfsForest g (f + 1) rest r.2
  termination_by fuel keys => (fuel, keys.length)

/-- Whole-graph cycle check over an adjacency list, with enough fuel for
every node. -/
def cycleCheck (g : List (Nat × List Nat)) : Bool :=
  dfsForest g (allNodes g).length (g.map Prod.fst) []

/-- The edge relation of the dependency graph: `Edge g a b` when `b` is a
stored dependency of `a` (`task → dep`, as in the source). -/
def Edge (g : List (Nat × List Nat)) (a b : Nat) : Prop :=
  b ∈ adjOf g a

/-- The graph has a cycle: some node reaches itself in at least one step. -/
def HasCycle (g : List (Nat × List Nat)) : Prop :=
  ∃ x, Relation.TransGen (Edge g) x x

/-- `Workflow` entity (`src/domain/entities/workflow.py`).  `tasks` is the
insertion-ordered task map of the aggregate. -/
structure Workflow where
  id : Nat
  name : String
  description : String
  executionMode : ExecutionModeEnum := ExecutionModeEnum.dag
  parentWorkflowId : Option Nat := none
  metadata : PyDict := []
  status : WorkflowStatus
  tasks : List (Nat × Task) := []
  startedAt : Option Nat := none
  completedAt : Option Nat := none
deriving DecidableEq, Repr

namespace Workflow

/-- `Workflow.__init__`: a fresh workflow starts in draft with no tasks
(`_validate_depth` is a stub in the source and never raises). -/
def mk0 (id : Nat) (name description : String) (mode : ExecutionModeEnum)
    (parentWorkflowId : Option Nat) (metadata : PyDict) (now : Nat) : Workflow :=
  { id := id, name := name, description := description,
    executionMode := mode, parentWorkflowId := parentWorkflowId,
    metadata := metadata,
    status := { status := WorkflowStatusEnum.draft, updatedAt := now } }

/-- Task values in insertion order (`self._tasks.values()`). -/
def taskValues (w : Workflow) : List Task :=
  w.tasks.map Prod.snd

/-- The adjacency list `graph[task.id] = task.dependencies` that
`_creates_cycle` builds from a task sequence, in iteration order. -/
def graphOfTasks (ts : List Task) : List (Nat × List Nat) :=
  ts.foldl (fun g u => upsert g u.id u.dependencies) []

/-- The workflow's stored dependency graph. -/
def graph (w : Workflow) : List (Nat × List Nat) :=
  graphOfTasks w.taskValues

/-- The dependency graph with a candidate task overlaid
(`graph[new_task.id] = set(new_task.dependencies)`). -/
def graphWith (w : Workflow) (t : Task) : List (Nat × List Nat) :=
  upsert w.graph t.id t.dependencies

/-- `Workflow._creates_cycle`: build the adjacency `task.id → dependencies`
from the stored tasks, overlay the candidate task, and run the DFS. -/
def createsCycle (w : Workflow) (t : Task) : Bool :=
  cycleCheck (w.graphWith t)

/-- `Workflow.add_task`: draft-only, the task must carry this workflow's id,
and the insertion must not create a circular dependency.  There is no check
against `MAX_TASKS_PER_WORKFLOW`. -/
def addTask (w : Workflow) (t : Task) : Except PyError Workflow :=
  if w.status.status ≠ WorkflowStatusEnum.draft then
    Except.error (PyError.invalidEntityStateError "Cannot add task to workflow in this state")
  else if t.workflowId ≠ w.id then
    Except.error (PyError.invalidEntityStateError "Task workflow_id does not match workflow ID")
  else if w.createsCycle t then
    Except.error (PyError.circularDependencyError "Adding task would create circular dependency")
  else
    Except.ok { w with tasks := upsert w.tasks t.id t }

/-- `Workflow.start`: from draft or pending, with at least one task. -/
def start (w : Workflow) (now : Nat) : Except PyError Workflow :=
  if w.status.status ≠ WorkflowStatusEnum.draft ∧
      w.status.status ≠ WorkflowStatusEnum.pending then
    Except.error (PyError.invalidEntityStateError "Cannot start workflow in this state")
  else if w.tasks.isEmpty then
    Except.error (PyError.invalidEntityStateError "Cannot start workflow with no tasks")
  else
    Except.ok { w with
      status := { status := WorkflowStatusEnum.running, updatedAt := now },
      startedAt := some now }

/-- `Workflow.complete`: from active statuses only. -/
def complete (w : Workflow) (now : Nat) : Except PyError Workflow :=
  if ¬ w.status.isActive then
    Except.error (PyError.invalidEntityStateError "Cannot complete workflow in this state")
  else
    Except.ok { w with
      status := { status := WorkflowStatusEnum.succeeded, updatedAt := now,
                  message := some "Workflow completed successfully" },
      completedAt := some now }

/-- `Workflow.fail`: no precondition; records the error as the status
message and sets `completed_at`. -/
def fail (w : Workflow) (error : String) (now : Nat) : Workflow :=
  { w with
    status := { status := WorkflowStatusEnum.failed, updatedAt := now,
                message := some error },
    completedAt := some now }

/-- `Workflow.pause`: guarded by `can_pause`. -/
def pause (w : Workflow) (now : Nat) : Except PyError Workflow :=
  if ¬ w.status.canPause then
    Except.error (PyError.invalidEntityStateError "Cannot pause workflow in this state")
  else
    Except.ok { w with
      status := { status := WorkflowStatusEnum.paused, updatedAt := now,
                  message := some "Workflow paused by user" } }

/-- `Workflow.resume`: guarded by `can_resume`. -/
def resume (w : Workflow) (now : Nat) : Except PyError Workflow :=
  if ¬ w.status.canResume then
    Except.error (PyError.invalidEntityStateError "Cannot resume workflow in this state")
  else
    Except.ok { w with
      status := { status := WorkflowStatusEnum.running, updatedAt := now,
                  message := some "Workflow resumed" } }

/-- `Workflow.cancel`: guarded by `can_cancel`. -/
def cancel (w : Workflow) (now : Nat) : Except PyError Workflow :=
  if ¬ w.status.canCancel then
    Except.error (PyError.invalidEntityStateError "Cannot cancel workflow in this state")
  else
    Except.ok { w with
      status := { status := WorkflowStatusEnum.cancelled, updatedAt := now,
                  message := some "Workflow cancelled by user" },
      completedAt := some now }

/-- `Workflow.get_ready_tasks`: collect the ids of terminal tasks, then keep
the waiting tasks whose dependencies are all among those ids. -/
def getReadyTasks (w : Workflow) : List Task :=
  let completedTaskIds :=
    (w.taskValues.filter (fun t => t.status.isTerminal)).map Task.id
  w.taskValues.filter
    (fun t => t.status.isWaiting && t.isReadyToExecute completedTaskIds)

/-- `Workflow.get_root_tasks`. -/
def getRootTasks (w : Workflow) : List Task :=
  w.taskValues.filter (fun t => ¬ t.hasDependencies)

/-- `Workflow.get_progress`: percentage of terminal tasks. -/
def getProgress (w : Workflow) : Rat :=
  if w.tasks.isEmpty then 0
  else ((w.taskValues.filter (fun t => t.status.isTerminal)).length : Rat)
    / (w.tasks.length : Rat) * 100

end Workflow

/-! ### Persistence and the orchestrator

The orchestrator (`src/application/services/workflow_orchestrator.py`)
depends only on the repository contracts: workflow rows (persisted without
their task map, as `WorkflowMapper.to_model` drops it), task rows, eager
task loading on `get_by_id`, and the indexed `get_ready_tasks` query of
`task_repository_impl.py`.  A handler returns the store it produced even
when an exception escapes, since repository saves are flushed as they
happen. -/

/-- The persistent store: workflow rows and task rows. -/
structure Store where
  workflows : List (Nat × Workflow) := []
  tasks : List (Nat × Task) := []
deriving DecidableEq, Repr

namespace Store

/-- Task rows of one workflow, in row order. -/
def taskRowsOf (s : Store) (workflowId : Nat) : List Task :=
  (s.tasks.map Prod.snd).filter (fun t => t.workflowId = workflowId)

/-- `task_repo.get_by_id`. -/
def getTask (s : Store) (taskId : Nat) : Option Task :=
  lookupA s.tasks taskId

/-- `task_repo.save`. -/
def saveTask (s : Store) (t : Task) : Store :=
  { s with tasks := upsert s.tasks t.id t }

/-- `workflow_repo.get_by_id`: the workflow row with its tasks eagerly
loaded from the task rows. -/
def getWorkflow (s : Store) (workflowId : Nat) : Option Workflow :=
  (lookupA s.workflows workflowId).map
    (fun w => { w with tasks := (s.taskRowsOf workflowId).map (fun t => (t.id, t)) })

/-- `workflow_repo.save`: persists the workflow columns only
(`WorkflowMapper.to_model` does not write task rows). -/
def saveWorkflow (s : Store) (w : Workflow) : Store :=
  { s with workflows := upsert s.workflows w.id { w with tasks := [] } }

/-- `task_repo.get_ready_tasks` (`task_repository_impl.py`): ids of rows in
a terminal status, then the pending/queued rows whose dependencies are all
among those ids.  The workflow's own status is not consulted. -/
def getReadyTasks (s : Store) (workflowId : Nat) : List Task :=
  let completedIds :=
    (((s.taskRowsOf workflowId).filter (fun t => t.status.isTerminal)).map Task.id)
  ((s.taskRowsOf workflowId).filter (fun t => t.status.isWaiting)).filter
    (fun t => t.isReadyToExecute completedIds)

end Store

namespace WorkflowOrchestrator

/-- The queue-and-save loop of `_schedule_dependent_tasks`; a guard
violation in `task.queue()` escapes, keeping the saves made so far. -/
def queueAll (now : Nat) : List Task → Store → Except PyError Unit × Store
  | [], s => (Except.ok (), s)
  | t :: rest, s =>
      match t.queue now with
      | Except.error e => (Except.error e, s)
      | Except.ok t2 => queueAll now rest (s.saveTask t2)

/-- `WorkflowOrchestrator._schedule_dependent_tasks`: queue, save and
publish every task the repository reports as ready.  The workflow's status
— paused or otherwise — is never checked. -/
def scheduleDependentTasks (workflowId : Nat) (now : Nat) (s : Store) :
    Except PyError Unit × Store :=
  queueAll now (s.getReadyTasks workflowId) s

/-- `WorkflowOrchestrator._check_workflow_completion`: once every task of
the workflow is terminal, complete the workflow when all succeeded, else
fail it with the error of the first `failed` task — or with
`"Unknown error"` when no task has status `failed`. -/
def checkWorkflowCompletion (workflowId : Nat) (now : Nat) (s : Store) :
    Except PyError Unit × Store :=
  match s.getWorkflow workflowId with
  | none => (Except.ok (), s)
  | some wf =>
      let allTasks := wf.taskValues
      if allTasks.isEmpty then (Except.ok (), s)
      else if ¬ allTasks.all (fun t => t.status.isTerminal) then (Except.ok (), s)
      else if allTasks.all (fun t => t.status.status = TaskStatusEnum.succeeded) then
        match wf.complete now with
        | Except.error e => (Except.error e, s)
        | Except.ok wf2 => (Except.ok (), s.saveWorkflow wf2)
      else
        let errorMsg : Option String :=
          match allTasks.find? (fun t => t.status.status = TaskStatusEnum.failed) with
          | some failedTask => failedTask.error
          | none => some "Unknown error"
        let wf2 : Workflow := { wf with
          status := { status := WorkflowStatusEnum.failed, updatedAt := now,
                      message := errorMsg },
          completedAt := some now }
        (Except.ok (), s.saveWorkflow wf2)

/-- `WorkflowOrchestrator.on_task_completed`: load the task (not found is a
`WorkflowExecutionError`), `task.complete(result)`, save, schedule
dependents, check completion; any exception in the `try` block is wrapped
in `WorkflowExecutionError` and re-raised, keeping the writes already
flushed. -/
def onTaskCompleted (taskId : Nat) (result : PyDict) (now : Nat) (s : Store) :
    Except PyError Unit × Store :=
  match s.getTask taskId with
  | none => (Except.error (PyError.workflowExecutionError "Task not found"), s)
  | some task =>
      match task.complete result now with
      | Except.error _ =>
          (Except.error (PyError.workflowExecutionError "Failed to handle task completion"), s)
      | Except.ok t2 =>
          let s1 := s.saveTask t2
          match scheduleDependentTasks t2.workflowId now s1 with
          | (Except.error _, s2) =>
              (Except.error (PyError.workflowExecutionError "Failed to handle task completion"), s2)
          | (Except.ok _, s2) =>
              match checkWorkflowCompletion t2.workflowId now s2 with
              | (Except.error _, s3) =>
                  (Except.error (PyError.workflowExecutionError "Failed to handle task completion"), s3)
              | (Except.ok _, s3) => (Except.ok (), s3)

/-- `WorkflowOrchestrator.pause_workflow`: guard via `workflow.pause()`,
persist. -/
def pauseWorkflow (workflowId : Nat) (now : Nat) (s : Store) :
    Except PyError Unit × Store :=
  match s.getWorkflow workflowId with
  | none => (Except.error (PyError.workflowExecutionError "Workflow not found"), s)
  | some wf =>
      match wf.pause now with
      | Except.error e => (Except.error e, s)
      | Except.ok wf2 => (Except.ok (), s.saveWorkflow wf2)

/-- `WorkflowOrchestrator.resume_workflow`: guard via `workflow.resume()`,
persist, then re-run the scheduler. -/
def resumeWorkflow (workflowId : Nat) (now : Nat) (s : Store) :
    Except PyError Unit × Store :=
  match s.getWorkflow workflowId with
  | none => (Except.error (PyError.workflowExecutionError "Workflow not found"), s)
  | some wf =>
      match wf.resume now with
      | Except.error e => (Except.error e, s)
      | Except.ok wf2 => scheduleDependentTasks workflowId now (s.saveWorkflow wf2)

end WorkflowOrchestrator

/-! ### Create-workflow use case (`src/application/use_cases/create_workflow.py`) -/

/-- One entry of the `tasks_config` input of the use case. -/
structure TaskCfg where
  name : String
  taskType : String := "http"
  payload : PyDict := []
  timeout : Int := 300
  priority : String := "normal"
  dependencies : List Nat := []
  retry : PyDict := []
  idempotencyKey : Option String := none
  compensationTaskId : Option Nat := none
deriving DecidableEq, Repr

namespace CreateWorkflowUseCase

/-- `CreateWorkflowUseCase._create_task_from_config`: its first statement
constructs `RetryPolicy(enabled=..., max_retries=..., strategy=...,
backoff_base=..., backoff_max=...)`.  The `RetryPolicy` dataclass accepts
neither an `enabled` nor a `backoff_max` keyword, so the constructor call
raises `TypeError` for every input, before any `Task` is built. -/
def createTaskFromConfig (workflowId : Nat) (cfg : TaskCfg) : Except PyError Task :=
  Except.error
    (PyError.typeError "RetryPolicy got an unexpected keyword argument enabled")

/-- The per-config loop of `CreateWorkflowUseCase.execute`: build each task
and `add_task` it to the workflow. -/
def addTasksFromConfigs (now : Nat) :
    Workflow → List TaskCfg → Except PyError Workflow
  | wf, [] => Except.ok wf
  | wf, cfg :: rest =>
      match createTaskFromConfig wf.id cfg with
      | Except.error e => Except.error e
      | Except.ok t =>
          match wf.addTask t with
          | Except.error e => Except.error e
          | Except.ok wf2 => addTasksFromConfigs now wf2 rest

/-- `CreateWorkflowUseCase.execute`: construct a draft workflow, build and
add a task per config entry, persist, return the workflow.  An exception
escapes before the save. -/
def execute (name description : String) (tasksConfig : List TaskCfg)
    (mode : ExecutionModeEnum) (parentWorkflowId : Option Nat)
    (metadata : PyDict) (newId : Nat) (now : Nat) (s : Store) :
    Except PyError Workflow × Store :=
  let wf := Workflow.mk0 newId name description mode parentWorkflowId metadata now
  match addTasksFromConfigs now wf tasksConfig with
  | Except.error e => (Except.error e, s)
  | Except.ok wf2 => (Except.ok wf2, s.saveWorkflow wf2)

end CreateWorkflowUseCase

/-! ### Concrete instances used by witnesses and counterexamples -/

/-- A task in a given status, used to build concrete scenarios. -/
def sampleTask (id : Nat) (workflowId : Nat) (deps : List Nat)
    (st : TaskStatusEnum) : Task :=
  { id := id, name := "t", config := {}, workflowId := workflowId,
    dependencies := deps, status := { status := st, updatedAt := 0 } }

/-- A workflow row in a given status with no attached tasks. -/
def sampleWorkflowRow (id : Nat) (st : WorkflowStatusEnum) : Workflow :=
  { id := id, name := "w", description := "", status := { status := st, updatedAt := 0 } }

/-- A failed task that another task depends on. -/
def taskDepFailed : Task := sampleTask 0 0 [] TaskStatusEnum.failed

/-- A pending task whose only dependency is `taskDepFailed`. -/
def taskDownstream : Task := sampleTask 1 0 [0] TaskStatusEnum.pending

/-- Workflow holding a failed task and a pending task downstream of it. -/
def workflowFailedDep : Workflow :=
  { sampleWorkflowRow 0 WorkflowStatusEnum.running with
    tasks := [(0, taskDepFailed), (1, taskDownstream)] }

/-- A task that already reached the terminal status `succeeded`. -/
def succeededTask : Task := sampleTask 0 0 [] TaskStatusEnum.succeeded

/-- Linear policy whose delay drops back to 0 at `attempt = max_retries`. -/
def linDropPolicy : RetryPolicy :=
  { maxRetries := 1, strategy := RetryStrategyEnum.linear, initialDelay := 5,
    maxDelay := 300, backoffBase := 2 }

/-- Fixed-delay policy with `max_retries = 0`. -/
def fixedZeroPolicy : RetryPolicy :=
  { maxRetries := 0, strategy := RetryStrategyEnum.fixed, initialDelay := 5,
    maxDelay := 300, backoffBase := 2 }

/-- A paused workflow whose pending task has all dependencies completed. -/
def pausedStore : Store :=
  { workflows := [(0, sampleWorkflowRow 0 WorkflowStatusEnum.paused)],
    tasks := [(0, sampleTask 0 0 [] TaskStatusEnum.succeeded),
              (1, sampleTask 1 0 [0] TaskStatusEnum.pending)] }

/-- A store holding a single already-succeeded task and its running
workflow. -/
def doneTaskStore : Store :=
  { workflows := [(0, sampleWorkflowRow 0 WorkflowStatusEnum.running)],
    tasks := [(0, sampleTask 0 0 [] TaskStatusEnum.succeeded)] }

/-- A store with a running task, for exercising the completion handler. -/
def runningTaskStore : Store :=
  { workflows := [(0, sampleWorkflowRow 0 WorkflowStatusEnum.running)],
    tasks := [(0, sampleTask 0 0 [] TaskStatusEnum.running)] }

/-- A store whose workflow has one succeeded and one skipped task. -/
def skippedStore : Store :=
  { workflows := [(0, sampleWorkflowRow 0 WorkflowStatusEnum.running)],
    tasks := [(0, sampleTask 0 0 [] TaskStatusEnum.succeeded),
              (1, sampleTask 1 0 [] TaskStatusEnum.skipped)] }

/-- The workflow entity loaded from `skippedStore`. -/
def skippedWorkflow : Workflow :=
  { sampleWorkflowRow 0 WorkflowStatusEnum.running with
    tasks := [(0, sampleTask 0 0 [] TaskStatusEnum.succeeded),
              (1, sampleTask 1 0 [] TaskStatusEnum.skipped)] }

/-- A dependency-free pending task with the given id, owned by workflow 0. -/
def freeTask (i : Nat) : Task := sampleTask i 0 [] TaskStatusEnum.pending

/-- Build a draft workflow and `add_task` `n` dependency-free tasks with ids
`0, …, n-1` to it, one at a time. -/
def depFreeWorkflow : Nat → Except PyError Workflow
  | 0 => Except.ok (Workflow.mk0 0 "big" "bulk" ExecutionModeEnum.dag none [] 0)
  | n + 1 =>
      match depFreeWorkflow n with
      | Except.error e => Except.error e
      | Except.ok w => w.addTask (freeTask n)

/-- A pending task with id 0 depending on task 1. -/
def cycTaskA : Task := sampleTask 0 0 [1] TaskStatusEnum.pending

/-- A pending task with id 1 depending on task 0: adding it after
`cycTaskA` closes a two-task cycle. -/
def cycTaskB : Task := sampleTask 1 0 [0] TaskStatusEnum.pending

/-- A task whose dependency set contains its own id. -/
def selfDepTask : Task := sampleTask 5 0 [5] TaskStatusEnum.pending

/-- Draft workflow already holding `cycTaskA`. -/
def cycWorkflow : Workflow :=
  { sampleWorkflowRow 0 WorkflowStatusEnum.draft with tasks := [(0, cycTaskA)] }

/-- An empty draft workflow. -/
def emptyDraftWorkflow : Workflow := sampleWorkflowRow 0 WorkflowStatusEnum.draft

/-! ### Correctness of the DFS cycle detection

`cycleCheck` is proved equivalent to the existence of a cycle in the
`task → dep` edge relation.  `CanReachCycle g x` says `x` reaches some node
lying on a cycle; the DFS invariant is that every fully-explored node
(visited but no longer on the recursion stack) cannot reach a cycle. -/

/-- `x` reaches a node that lies on a cycle. -/
def CanReachCycle (g : List (Nat × List Nat)) (x : Nat) : Prop :=
  ∃ y, Relation.ReflTransGen (Edge g) x y ∧ Relation.TransGen (Edge g) y y

/-- The recursion stack read bottom-up is a chain of edges: each stack entry
has an edge to the entry pushed on top of it. -/
def ChainEdge (g : List (Nat × List Nat)) (l : List Nat) : Prop :=
  List.Chain' (fun a b => Edge g b a) l

lemma lookupA_upsert {α : Type} (l : List (Nat × α)) (k : Nat) (v : α) (j : Nat) :
    lookupA (upsert l k v) j = if j = k then some v else lookupA l j := by
  induction l with
  | nil =>
      by_cases h : j = k
      · simp [upsert, lookupA, h]
      · have h2 : ¬ k = j := fun hh => h hh.symm
        simp [upsert, lookupA, h, h2]
  | cons p rest ih =>
      rcases p with ⟨pk, pv⟩
      by_cases hpk : pk = k
      · subst hpk
        by_cases hj : j = pk
        · simp [upsert, lookupA, hj]
        · have h2 : ¬ pk = j := fun hh => hj hh.symm
          simp [upsert, lookupA, hj, h2]
      · by_cases hj : pk = j
        · subst hj
          simp [upsert, lookupA, hpk]
        · simp [upsert, lookupA, hpk, hj, ih]

lemma lookupA_mem {α : Type} {l : List (Nat × α)} {k : Nat} {v : α}
    (h : lookupA l k = some v) : (k, v) ∈ l := by
  induction l with
  | nil => simp [lookupA] at h
  | cons p rest ih =>
      rcases p with ⟨pk, pv⟩
      by_cases hp : pk = k
      · simp only [lookupA, hp, if_true, Option.some.injEq] at h
        subst hp; subst h
        exact List.mem_cons_self _ _
      · simp only [lookupA, hp, if_false] at h
        exact List.mem_cons.mpr (Or.inr (ih h))

lemma adj_sub_allNodes {g : List (Nat × List Nat)} {n m : Nat}
    (h : m ∈ adjOf g n) : m ∈ allNodes g := by
  unfold adjOf at h
  cases hl : lookupA g n with
  | none => rw [hl] at h; simp at h
  | some deps =>
      rw [hl] at h
      simp at h
      have hmem : (n, deps) ∈ g := lookupA_mem hl
      unfold allNodes
      refine List.mem_append.mpr (Or.inr ?_)
      exact List.mem_flatten.mpr ⟨deps, List.mem_map.mpr ⟨(n, deps), hmem, rfl⟩, h⟩

lemma edge_mem_keys {g : List (Nat × List Nat)} {a b : Nat} (h : Edge g a b) :
    a ∈ g.map Prod.fst := by
  unfold Edge adjOf at h
  cases hl : lookupA g a with
  | none => rw [hl] at h; simp at h
  | some deps => exact List.mem_map.mpr ⟨(a, deps), lookupA_mem hl, rfl⟩

lemma chain_to_head {g : List (Nat × List Nat)} :
    ∀ (rs : List Nat) (a x : Nat), ChainEdge g (a :: rs) → x ∈ a :: rs →
      Relation.ReflTransGen (Edge g) x a := by
  intro rs
  induction rs with
  | nil =>
      intro a x _ hx
      simp at hx
      subst hx
      exact Relation.ReflTransGen.refl
  | cons b rs2 ih =>
      intro a x hc hx
      have hc2 : Edge g b a ∧ ChainEdge g (b :: rs2) := by
        simpa [ChainEdge, List.chain'_cons] using hc
      rcases List.mem_cons.mp hx with hxa | hxtail
      · subst hxa; exact Relation.ReflTransGen.refl
      · exact Relation.ReflTransGen.tail (ih b x hc2.2 hxtail) hc2.1

lemma cycle_of_stack_hit {g : List (Nat × List Nat)} {a n : Nat} {rs : List Nat}
    (hc : ChainEdge g (a :: rs)) (hn : n ∈ a :: rs) (he : Edge g a n) :
    ∃ x, Relation.TransGen (Edge g) x x :=
  ⟨n, Relation.TransGen.tail' (chain_to_head rs a n hc hn) he⟩

/-- Soundness of the DFS: a `true` verdict exhibits a cycle.  The recursion
stack is maintained as a chain of edges and every pending neighbour has an
edge from the node on top of the stack. -/
lemma dfsN_sound (g : List (Nat × List Nat)) :
    ∀ (fuel : Nat) (pending visited : List Nat) (a : Nat) (rs : List Nat),
      ChainEdge g (a :: rs) → (∀ n ∈ pending, Edge g a n) →
      (dfsN g fuel pending visited (a :: rs)).1 = true →
      ∃ x, Relation.TransGen (Edge g) x x := by
  intro fuel
  induction fuel using Nat.strong_induction_on with
  | _ fuel ihf =>
    intro pending
    induction pending with
    | nil =>
        intro visited a rs _ _ hres
        simp [dfsN] at hres
    | cons n rest ihp =>
        intro visited a rs hchain hpend hres
        cases fuel with
        | zero =>
            rw [dfsN] at hres
            by_cases hv : n ∈ visited
            · rw [if_pos hv] at hres
              by_cases hr : n ∈ a :: rs
              · exact cycle_of_stack_hit hchain hr (hpend n (List.mem_cons_self n rest))
              · rw [if_neg hr] at hres
                exact ihp visited a rs hchain
                  (fun m hm => hpend m (List.mem_cons_of_mem n hm)) hres
            · rw [if_neg hv] at hres
              simp at hres
        | succ f =>
            rw [dfsN] at hres
            by_cases hv : n ∈ visited
            · rw [if_pos hv] at hres
              by_cases hr : n ∈ a :: rs
              · exact cycle_of_stack_hit hchain hr (hpend n (List.mem_cons_self n rest))
              · rw [if_neg hr] at hres
                exact ihp visited a rs hchain
                  (fun m hm => hpend m (List.mem_cons_of_mem n hm)) hres
            · rw [if_neg hv] at hres
              by_cases hb : (dfsN g f (adjOf g n) (n :: visited) (n :: a :: rs)).1 = true
              · have hchain2 : ChainEdge g (n :: a :: rs) :=
                  List.chain'_cons.mpr ⟨hpend n (List.mem_cons_self n rest), hchain⟩
                exact ihf f (Nat.lt_succ_self f) (adjOf g n) (n :: visited) n (a :: rs)
                  hchain2 (fun m hm => hm) hb
              · rw [Bool.not_eq_true] at hb
                simp only [hb, Bool.false_eq_true, if_false] at hres
                exact ihp (dfsN g f (adjOf g n) (n :: visited) (n :: a :: rs)).2 a rs
                  hchain (fun m hm => hpend m (List.mem_cons_of_mem n hm)) hres

/-- Forest-level soundness: if any DFS tree reports a cycle, one exists. -/
lemma dfsForest_sound (g : List (Nat × List Nat)) :
    ∀ (fuel : Nat) (keys visited : List Nat),
      dfsForest g fuel keys visited = true →
      ∃ x, Relation.TransGen (Edge g) x x := by
  intro fuel keys
  induction keys with
  | nil =>
      intro visited hres
      simp [dfsForest] at hres
  | cons k rest ih =>
      intro visited hres
      cases fuel with
      | zero =>
          rw [dfsForest] at hres
          by_cases hv : k ∈ visited
          · rw [if_pos hv] at hres
            exact ih visited hres
          · rw [if_neg hv] at hres
            simp at hres
      | succ f =>
          rw [dfsForest] at hres
          by_cases hv : k ∈ visited
          · rw [if_pos hv] at hres
            exact ih visited hres
          · rw [if_neg hv] at hres
            by_cases hb : (dfsN g f (adjOf g k) (k :: visited) [k]).1 = true
            · exact dfsN_sound g f (adjOf g k) (k :: visited) k []
                (List.chain'_singleton k) (fun m hm => hm) hb
            · rw [Bool.not_eq_true] at hb
              simp only [hb, Bool.false_eq_true, if_false] at hres
              exact ih (dfsN g f (adjOf g k) (k :: visited) [k]).2 hres

/-- The DFS invariant: every node that is visited but no longer on the
recursion stack cannot reach a cycle. -/
def ScanInv (g : List (Nat × List Nat)) (visited recStack : List Nat) : Prop :=
  ∀ x ∈ visited, x ∉ recStack → ¬ CanReachCycle g x

/-- A node none of whose out-neighbours reaches a cycle does not reach a
cycle itself. -/
lemma notCRC_of_neighbors {g : List (Nat × List Nat)} {n : Nat}
    (h : ∀ m ∈ adjOf g n, ¬ CanReachCycle g m) : ¬ CanReachCycle g n := by
  rintro ⟨y, hxy, hyy⟩
  rcases Relation.ReflTransGen.cases_head hxy with heq | ⟨m, hnm, hmy⟩
  · subst heq
    obtain ⟨b, hnb, hbn⟩ := Relation.TransGen.head'_iff.mp hyy
    exact h b hnb ⟨n, hbn, hyy⟩
  · exact h m hnm ⟨y, hmy, hyy⟩

/-- Completeness of the DFS: a `false` verdict with sufficient fuel
preserves the invariant, visits everything pending, and certifies that no
pending node reaches a cycle.  `fuel` dominates the number of unvisited
nodes, so the fuel-exhaustion branch is unreachable. -/
lemma dfsN_complete (g : List (Nat × List Nat)) :
    ∀ (fuel : Nat) (pending visited recStack : List Nat),
      (∀ n ∈ pending, n ∈ allNodes g) →
      (∀ x ∈ recStack, x ∈ visited) →
      ScanInv g visited recStack →
      ((allNodes g).toFinset \ visited.toFinset).card ≤ fuel →
      (dfsN g fuel pending visited recStack).1 = false →
      ScanInv g (dfsN g fuel pending visited recStack).2 recStack
      ∧ (∀ x ∈ visited, x ∈ (dfsN g fuel pending visited recStack).2)
      ∧ (∀ n ∈ pending, n ∈ (dfsN g fuel pending visited recStack).2)
      ∧ (∀ x ∈ (dfsN g fuel pending visited recStack).2,
            x ∈ visited ∨ x ∈ allNodes g)
      ∧ (∀ n ∈ pending, n ∉ recStack) := by
  intro fuel
  induction fuel using Nat.strong_induction_on with
  | _ fuel ihf =>
    intro pending
    induction pending with
    | nil =>
        intro visited recStack _ _ hinv _ _
        rw [dfsN]
        exact ⟨hinv, fun x hx => hx, by simp, fun x hx => Or.inl hx, by simp⟩
    | cons n rest ihp =>
        intro visited recStack hsub hrv hinv hfuel hres
        have hnU : n ∈ allNodes g := hsub n (List.mem_cons_self n rest)
        by_cases hv : n ∈ visited
        · by_cases hr : n ∈ recStack
          · exfalso
            cases fuel with
            | zero => rw [dfsN, if_pos hv, if_pos hr] at hres; simp at hres
            | succ f => rw [dfsN, if_pos hv, if_pos hr] at hres; simp at hres
          · have hstep :
                dfsN g fuel (n :: rest) visited recStack =
                  dfsN g fuel rest visited recStack := by
              cases fuel with
              | zero => rw [dfsN, if_pos hv, if_neg hr]
              | succ f => rw [dfsN, if_pos hv, if_neg hr]
            rw [hstep] at hres ⊢
            obtain ⟨q1, q2, q3, q4, q5⟩ :=
              ihp visited recStack (fun m hm => hsub m (List.mem_cons_of_mem n hm))
                hrv hinv hfuel hres
            refine ⟨q1, q2, ?_, q4, ?_⟩
            · intro m hm
              rcases List.mem_cons.mp hm with hmn | hmr
              · subst hmn; exact q2 m hv
              · exact q3 m hmr
            · intro m hm
              rcases List.mem_cons.mp hm with hmn | hmr
              · subst hmn; exact hr
              · exact q5 m hmr
        · have hnr : n ∉ recStack := fun hc => hv (hrv n hc)
          have hnsd : n ∈ (allNodes g).toFinset \ visited.toFinset :=
            Finset.mem_sdiff.mpr ⟨List.mem_toFinset.mpr hnU,
              fun hc => hv (List.mem_toFinset.mp hc)⟩
          cases fuel with
          | zero =>
              exfalso
              have hpos : 0 < ((allNodes g).toFinset \ visited.toFinset).card :=
                Finset.card_pos.mpr ⟨n, hnsd⟩
              omega
          | succ f =>
              rw [dfsN, if_neg hv] at hres ⊢
              by_cases hb : (dfsN g f (adjOf g n) (n :: visited) (n :: recStack)).1 = true
              · exfalso
                simp only [hb, if_true] at hres
                simp at hres
              · rw [Bool.not_eq_true] at hb
                simp only [hb, Bool.false_eq_true, if_false] at hres ⊢
                have hfuelc :
                    ((allNodes g).toFinset \ (n :: visited).toFinset).card ≤ f := by
                  have h1 : (allNodes g).toFinset \ (n :: visited).toFinset =
                      ((allNodes g).toFinset \ visited.toFinset).erase n := by
                    rw [List.toFinset_cons, Finset.sdiff_insert]
                  rw [h1, Finset.card_erase_of_mem hnsd]
                  omega
                obtain ⟨c1, c2, c3, c4, c5⟩ :=
                  ihf f (Nat.lt_succ_self f) (adjOf g n) (n :: visited) (n :: recStack)
                    (fun m hm => adj_sub_allNodes hm)
                    (by
                      intro x hx
                      rcases List.mem_cons.mp hx with hxn | hxr
                      · subst hxn; exact List.mem_cons_self _ _
                      · exact List.mem_cons_of_mem _ (hrv x hxr))
                    (by
                      intro x hx hxr
                      rcases List.mem_cons.mp hx with hxn | hxv
                      · exact absurd (hxn ▸ List.mem_cons_self n recStack) hxr
                      · exact hinv x hxv (fun hc => hxr (List.mem_cons_of_mem n hc)))
                    hfuelc hb
                have hnotn : ¬ CanReachCycle g n :=
                  notCRC_of_neighbors (fun m hm => c1 m (c3 m hm) (c5 m hm))
                have hinvr :
                    ScanInv g (dfsN g f (adjOf g n) (n :: visited) (n :: recStack)).2
                      recStack := by
                  intro x hx hxr
                  by_cases hxn : x = n
                  · subst hxn; exact hnotn
                  · exact c1 x hx (by
                      intro hc
                      rcases List.mem_cons.mp hc with h1 | h2
                      · exact hxn h1
                      · exact hxr h2)
                obtain ⟨q1, q2, q3, q4, q5⟩ :=
                  ihp (dfsN g f (adjOf g n) (n :: visited) (n :: recStack)).2 recStack
                    (fun m hm => hsub m (List.mem_cons_of_mem n hm))
                    (fun x hx => c2 x (List.mem_cons_of_mem n (hrv x hx)))
                    hinvr
                    (by
                      have hsubv : (n :: visited).toFinset ⊆
                          (dfsN g f (adjOf g n) (n :: visited) (n :: recStack)).2.toFinset := by
                        intro x hx
                        exact List.mem_toFinset.mpr (c2 x (List.mem_toFinset.mp hx))
                      have hmono := Finset.card_le_card
                        (Finset.sdiff_subset_sdiff (le_refl (allNodes g).toFinset) hsubv)
                      omega)
                    hres
                refine ⟨q1, ?_, ?_, ?_, ?_⟩
                · intro x hx
                  exact q2 x (c2 x (List.mem_cons_of_mem n hx))
                · intro m hm
                  rcases List.mem_cons.mp hm with hmn | hmr
                  · exact q2 m (c2 m (List.mem_cons.mpr (Or.inl hmn)))
                  · exact q3 m hmr
                · intro x hx
                  rcases q4 x hx with hx2 | hx2
                  · rcases c4 x hx2 with hx3 | hx3
                    · rcases List.mem_cons.mp hx3 with h4 | h4
                      · exact Or.inr (h4 ▸ hnU)
                      · exact Or.inl h4
                    · exact Or.inr hx3
                  · exact Or.inr hx2
                · intro m hm
                  rcases List.mem_cons.mp hm with hmn | hmr
                  · subst hmn; exact hnr
                  · exact q5 m hmr

/-- Forest-level completeness: a `false` verdict with sufficient fuel
certifies that no key of the graph reaches a cycle. -/
lemma dfsForest_complete (g : List (Nat × List Nat)) :
    ∀ (fuel : Nat) (keys visited : List Nat),
      (∀ k ∈ keys, k ∈ allNodes g) →
      ScanInv g visited [] →
      ((allNodes g).toFinset \ visited.toFinset).card ≤ fuel →
      dfsForest g fuel keys visited = false →
      ∀ k ∈ keys, ¬ CanReachCycle g k := by
  intro fuel keys
  induction keys with
  | nil =>
      intro visited _ _ _ _ k hk
      simp at hk
  | cons k0 rest ih =>
      intro visited hsub hinv hfuel hres
      have hk0U : k0 ∈ allNodes g := hsub k0 (List.mem_cons_self k0 rest)
      by_cases hv : k0 ∈ visited
      · have hstep : dfsForest g fuel (k0 :: rest) visited =
            dfsForest g fuel rest visited := by
          cases fuel with
          | zero => rw [dfsForest, if_pos hv]
          | succ f => rw [dfsForest, if_pos hv]
        rw [hstep] at hres
        intro k hk
        rcases List.mem_cons.mp hk with hke | hkr
        · exact hke ▸ hinv k0 hv (List.not_mem_nil k0)
        · exact ih visited (fun m hm => hsub m (List.mem_cons_of_mem k0 hm))
            hinv hfuel hres k hkr
      · have hnsd : k0 ∈ (allNodes g).toFinset \ visited.toFinset :=
          Finset.mem_sdiff.mpr ⟨List.mem_toFinset.mpr hk0U,
            fun hc => hv (List.mem_toFinset.mp hc)⟩
        cases fuel with
        | zero =>
            exfalso
            have hpos : 0 < ((allNodes g).toFinset \ visited.toFinset).card :=
              Finset.card_pos.mpr ⟨k0, hnsd⟩
            omega
        | succ f =>
            rw [dfsForest, if_neg hv] at hres
            by_cases hb : (dfsN g f (adjOf g k0) (k0 :: visited) [k0]).1 = true
            · exfalso
              simp only [hb, if_true] at hres
              simp at hres
            · rw [Bool.not_eq_true] at hb
              simp only [hb, Bool.false_eq_true, if_false] at hres
              have hfuelc :
                  ((allNodes g).toFinset \ (k0 :: visited).toFinset).card ≤ f := by
                have h1 : (allNodes g).toFinset \ (k0 :: visited).toFinset =
                    ((allNodes g).toFinset \ visited.toFinset).erase k0 := by
                  rw [List.toFinset_cons, Finset.sdiff_insert]
                rw [h1, Finset.card_erase_of_mem hnsd]
                omega
              obtain ⟨c1, c2, c3, c4, c5⟩ :=
                dfsN_complete g f (adjOf g k0) (k0 :: visited) [k0]
                  (fun m hm => adj_sub_allNodes hm)
                  (fun x hx => by
                    rcases List.mem_cons.mp hx with hxk | hxk
                    · exact hxk ▸ List.mem_cons_self _ _
                    · simp at hxk)
                  (by
                    intro x hx hxr
                    rcases List.mem_cons.mp hx with hxk | hxv
                    · exact absurd (List.mem_singleton.mpr hxk) hxr
                    · exact hinv x hxv (List.not_mem_nil x))
                  hfuelc hb
              have hnotk : ¬ CanReachCycle g k0 :=
                notCRC_of_neighbors (fun m hm => c1 m (c3 m hm) (c5 m hm))
              have hinvr :
                  ScanInv g (dfsN g f (adjOf g k0) (k0 :: visited) [k0]).2 [] := by
                intro x hx _
                by_cases hxk : x = k0
                · exact hxk ▸ hnotk
                · exact c1 x hx (fun hc => hxk (List.mem_singleton.mp hc))
              have hfuelr :
                  ((allNodes g).toFinset \
                    (dfsN g f (adjOf g k0) (k0 :: visited) [k0]).2.toFinset).card
                      ≤ f + 1 := by
                have hsubv : (k0 :: visited).toFinset ⊆
                    (dfsN g f (adjOf g k0) (k0 :: visited) [k0]).2.toFinset := by
                  intro x hx
                  exact List.mem_toFinset.mpr (c2 x (List.mem_toFinset.mp hx))
                have hmono := Finset.card_le_card
                  (Finset.sdiff_subset_sdiff (le_refl (allNodes g).toFinset) hsubv)
                omega
              intro k hk
              rcases List.mem_cons.mp hk with hke | hkr
              · exact hke ▸ hnotk
              · exact ih (dfsN g f (adjOf g k0) (k0 :: visited) [k0]).2
                  (fun m hm => hsub m (List.mem_cons_of_mem k0 hm))
                  hinvr hfuelr hres k hkr

/-- The DFS of `Workflow._creates_cycle` is a decision procedure for the
existence of a cycle in the dependency graph. -/
lemma cycleCheck_iff (g : List (Nat × List Nat)) :
    cycleCheck g = true ↔ HasCycle g := by
  constructor
  · intro h
    exact dfsForest_sound g (allNodes g).length (g.map Prod.fst) [] h
  · intro hcy
    by_contra hfalse
    rw [Bool.not_eq_true] at hfalse
    obtain ⟨x, hx⟩ := hcy
    have hxkey : x ∈ g.map Prod.fst := by
      obtain ⟨m, hxm, _⟩ := Relation.TransGen.head'_iff.mp hx
      exact edge_mem_keys hxm
    have hall := dfsForest_complete g (allNodes g).length (g.map Prod.fst) []
      (fun k hk => by unfold allNodes; exact List.mem_append.mpr (Or.inl hk))
      (by intro y hy; simp at hy)
      (by simpa using List.toFinset_card_le (allNodes g))
      hfalse
    exact hall x hxkey ⟨x, Relation.ReflTransGen.refl, hx⟩

/-! ### The stored graph of a well-formed workflow

A workflow built through `add_task` keys each task by its own id and never
duplicates a key; under those two facts the graph after an insertion is the
stored graph with the new adjacency row upserted. -/

lemma upsert_of_not_mem {α : Type} {l : List (Nat × α)} {k : Nat} (v : α)
    (h : k ∉ l.map Prod.fst) : upsert l k v = l ++ [(k, v)] := by
  induction l with
  | nil => rfl
  | cons p rest ih =>
      have h1 : ¬ p.1 = k := by
        intro hc
        exact h (List.mem_cons.mpr (Or.inl hc.symm))
      have h2 : k ∉ rest.map Prod.fst := fun hc =>
        h (List.mem_cons.mpr (Or.inr hc))
      simp [upsert, h1, ih h2]

lemma mem_keys_upsert {α : Type} {l : List (Nat × α)} {k j : Nat} {v : α}
    (h : j ∈ (upsert l k v).map Prod.fst) : j ∈ l.map Prod.fst ∨ j = k := by
  induction l with
  | nil => simp [upsert] at h; exact Or.inr h
  | cons p rest ih =>
      by_cases hp : p.1 = k
      · simp only [upsert, hp, if_true, List.map_cons] at h
        rcases List.mem_cons.mp h with h1 | h1
        · exact Or.inr h1
        · exact Or.inl (List.mem_cons.mpr (Or.inr h1))
      · simp only [upsert, hp, if_false, List.map_cons] at h
        rcases List.mem_cons.mp h with h1 | h1
        · exact Or.inl (List.mem_cons.mpr (Or.inl h1))
        · rcases ih h1 with h2 | h2
          · exact Or.inl (List.mem_cons.mpr (Or.inr h2))
          · exact Or.inr h2

lemma upsert_keys_nodup {α : Type} {l : List (Nat × α)} {k : Nat} {v : α}
    (hnd : (l.map Prod.fst).Nodup) : ((upsert l k v).map Prod.fst).Nodup := by
  induction l with
  | nil => simp [upsert]
  | cons p rest ih =>
      have hnd2 : (p.1 :: rest.map Prod.fst).Nodup := by simpa using hnd
      rcases List.nodup_cons.mp hnd2 with ⟨hp1, hp2⟩
      by_cases hp : p.1 = k
      · simp only [upsert, hp, if_true, List.map_cons]
        exact List.nodup_cons.mpr ⟨by rw [← hp]; exact hp1, hp2⟩
      · simp only [upsert, hp, if_false, List.map_cons]
        refine List.nodup_cons.mpr ⟨?_, ih hp2⟩
        intro hc
        rcases mem_keys_upsert hc with h1 | h1
        · exact hp1 h1
        · exact hp h1

lemma upsert_preserves_ids {l : List (Nat × Task)} {t : Task}
    (hids : ∀ p ∈ l, p.1 = p.2.id) : ∀ p ∈ upsert l t.id t, p.1 = p.2.id := by
  induction l with
  | nil =>
      intro p hp
      simp [upsert] at hp
      subst hp
      rfl
  | cons q rest ih =>
      intro p hp
      by_cases hq : q.1 = t.id
      · simp only [upsert, hq, if_true] at hp
        rcases List.mem_cons.mp hp with h1 | h1
        · subst h1; rfl
        · exact hids p (List.mem_cons.mpr (Or.inr h1))
      · simp only [upsert, hq, if_false] at hp
        rcases List.mem_cons.mp hp with h1 | h1
        · exact h1 ▸ hids q (List.mem_cons_self q rest)
        · exact ih (fun r hr => hids r (List.mem_cons.mpr (Or.inr hr))) p h1

lemma map_upsert {α β : Type} (d : α → β) :
    ∀ (l : List (Nat × α)) (k : Nat) (v : α),
      (upsert l k v).map (fun p => (p.1, d p.2))
        = upsert (l.map (fun p => (p.1, d p.2))) k (d v) := by
  intro l
  induction l with
  | nil => intro k v; rfl
  | cons p rest ih =>
      intro k v
      by_cases hp : p.1 = k
      · simp [upsert, hp]
      · simp [upsert, hp, ih]

lemma graphOfTasks_foldl_eq :
    ∀ (ts : List Task) (acc : List (Nat × List Nat)),
      (∀ u ∈ ts, u.id ∉ acc.map Prod.fst) → (ts.map Task.id).Nodup →
      ts.foldl (fun g u => upsert g u.id u.dependencies) acc
        = acc ++ ts.map (fun u => (u.id, u.dependencies)) := by
  intro ts
  induction ts with
  | nil => intro acc _ _; simp
  | cons u rest ih =>
      intro acc hacc hnd
      have hnd2 : (u.id :: rest.map Task.id).Nodup := by simpa using hnd
      rcases List.nodup_cons.mp hnd2 with ⟨hu1, hu2⟩
      have hstep : upsert acc u.id u.dependencies = acc ++ [(u.id, u.dependencies)] :=
        upsert_of_not_mem _ (hacc u (List.mem_cons_self u rest))
      have hrest : ∀ v ∈ rest, v.id ∉ (acc ++ [(u.id, u.dependencies)]).map Prod.fst := by
        intro v hv hc
        rw [List.map_append] at hc
        rcases List.mem_append.mp hc with h1 | h1
        · exact hacc v (List.mem_cons.mpr (Or.inr hv)) h1
        · simp at h1
          exact hu1 (h1 ▸ List.mem_map.mpr ⟨v, hv, rfl⟩)
      calc (u :: rest).foldl (fun g u => upsert g u.id u.dependencies) acc
      _ = rest.foldl (fun g u => upsert g u.id u.dependencies)
            (acc ++ [(u.id, u.dependencies)]) := by rw [List.foldl_cons, hstep]
      _ = acc ++ [(u.id, u.dependencies)] ++ rest.map (fun v => (v.id, v.dependencies)) :=
            ih _ hrest hu2
      _ = acc ++ (u :: rest).map (fun v => (v.id, v.dependencies)) := by simp

lemma graphOfTasks_map_snd {l : List (Nat × Task)}
    (hids : ∀ p ∈ l, p.1 = p.2.id) (hnd : (l.map Prod.fst).Nodup) :
    Workflow.graphOfTasks (l.map Prod.snd)
      = l.map (fun p => (p.1, p.2.dependencies)) := by
  have hidsmap : (l.map Prod.snd).map Task.id = l.map Prod.fst := by
    rw [List.map_map]
    exact List.map_congr_left (fun p hp => (hids p hp).symm)
  have h1 := graphOfTasks_foldl_eq (l.map Prod.snd) [] (by simp)
    (by rw [hidsmap]; exact hnd)
  unfold Workflow.graphOfTasks
  rw [h1]
  rw [List.nil_append, List.map_map]
  exact List.map_congr_left (fun p hp => by
    simp only [Function.comp_apply]
    rw [← hids p hp])

/-- Inserting a task into a well-formed task map upserts its adjacency row
into the stored graph. -/
lemma graph_upsert_comm {l : List (Nat × Task)} {t : Task}
    (hids : ∀ p ∈ l, p.1 = p.2.id) (hnd : (l.map Prod.fst).Nodup) :
    Workflow.graphOfTasks ((upsert l t.id t).map Prod.snd)
      = upsert (Workflow.graphOfTasks (l.map Prod.snd)) t.id t.dependencies := by
  rw [graphOfTasks_map_snd (upsert_preserves_ids hids) (upsert_keys_nodup hnd),
      graphOfTasks_map_snd hids hnd]
  exact map_upsert (fun u : Task => u.dependencies) l t.id t

/-! ### Claim C1 — the ready-task query -/

lemma isReadyToExecute_iff (t : Task) (c : List Nat) :
    t.isReadyToExecute c = true ↔ ∀ d ∈ t.dependencies, d ∈ c := by
  unfold Task.isReadyToExecute Task.hasDependencies
  by_cases h : t.dependencies = []
  · simp [h]
  · have hlen : 0 < t.dependencies.length := List.length_pos.mpr h
    simp [hlen, List.all_eq_true]

/-- C1 (amended): `getReadyTasks` returns exactly the stored tasks whose
status is Waiting and each of whose dependencies is the id of a stored task
in a Terminal status.  Terminal includes `failed` and `cancelled`, so a
dependency that failed or was cancelled does satisfy the condition and its
downstream task is returned. -/
theorem ready_tasks_characterization (w : Workflow) (t : Task) :
    t ∈ w.getReadyTasks ↔
      t ∈ w.taskValues ∧ t.status.isWaiting = true ∧
        ∀ d ∈ t.dependencies,
          ∃ u ∈ w.taskValues, u.id = d ∧ u.status.isTerminal = true := by
  unfold Workflow.getReadyTasks
  rw [List.mem_filter, Bool.and_eq_true, isReadyToExecute_iff]
  constructor
  · rintro ⟨hmem, hwait, hready⟩
    refine ⟨hmem, hwait, ?_⟩
    intro d hd
    have hmap := hready d hd
    rw [List.mem_map] at hmap
    obtain ⟨u, hu, hid⟩ := hmap
    rw [List.mem_filter] at hu
    exact ⟨u, hu.1, hid, hu.2⟩
  · rintro ⟨hmem, hwait, hdeps⟩
    refine ⟨hmem, hwait, ?_⟩
    intro d hd
    obtain ⟨u, hu, hid, hterm⟩ := hdeps d hd
    exact List.mem_map.mpr ⟨u, List.mem_filter.mpr ⟨hu, hterm⟩, hid⟩

/-- C1 (counterexample): the pending task `taskDownstream`, whose only
dependency `taskDepFailed` reached the terminal status `failed`, *is* in
the set returned by `getReadyTasks` — the claim says it must not be. -/
theorem ready_tasks_failed_dep_counterexample :
    taskDepFailed.status.status = TaskStatusEnum.failed ∧
    taskDownstream.dependencies = [taskDepFailed.id] ∧
    workflowFailedDep.getReadyTasks = [taskDownstream] := by
  refine ⟨rfl, rfl, ?_⟩
  decide

/-! ### Claim C3 — `Task.fail` -/

/-- C3: `Task.fail` is guarded on the active statuses, but in the allowed
states it always raises `AttributeError`, because `_can_retry` reads the
nonexistent `RetryPolicy.enabled` field.  No state transition ever
happens. -/
theorem task_fail_attribute_error (t : Task) (err : String) (now : Nat) :
    t.fail err now = Except.error
      (if t.status.isActive then
        PyError.attributeError "RetryPolicy object has no attribute enabled"
      else PyError.invalidEntityStateError "Cannot fail task in this state") := by
  unfold Task.fail Task.canRetryCheck
  by_cases h : t.status.isActive
  · simp [h]
  · simp [h]

/-! ### Claim C7 — terminal stability -/

/-- C7 (counterexample): `skip()` and `timeout()` carry no precondition, so
they do change the status of the terminal task `succeededTask`. -/
theorem terminal_stability_counterexample :
    succeededTask.status.isTerminal = true ∧
    (succeededTask.skip none 7).status.status = TaskStatusEnum.skipped ∧
    (succeededTask.timeoutOp 7).status.status = TaskStatusEnum.timeout := by
  exact ⟨rfl, rfl, rfl⟩

/-- C7 (amended): once a task is terminal, `start`, `complete`, `fail`,
`retry`, `cancel` and `queue` all raise and leave it unchanged, but `skip`
and `timeout` are allowed from every state — including terminal ones — and
overwrite the status with `skipped` resp. `timeout`. -/
theorem terminal_stability_amended (t : Task) (h : t.status.isTerminal = true)
    (result : PyDict) (err : String) (mock : Option PyDict) (now : Nat) :
    (∃ e, t.start now = Except.error e) ∧
    (∃ e, t.complete result now = Except.error e) ∧
    (∃ e, t.fail err now = Except.error e) ∧
    (∃ e, t.retry now = Except.error e) ∧
    (∃ e, t.cancel now = Except.error e) ∧
    (∃ e, t.queue now = Except.error e) ∧
    (t.skip mock now).status.status = TaskStatusEnum.skipped ∧
    (t.timeoutOp now).status.status = TaskStatusEnum.timeout := by
  have hst : t.status.status = TaskStatusEnum.succeeded ∨
      t.status.status = TaskStatusEnum.failed ∨
      t.status.status = TaskStatusEnum.cancelled ∨
      t.status.status = TaskStatusEnum.skipped := by
    simpa [TaskStatus.isTerminal] using h
  rcases hst with h1 | h1 | h1 | h1 <;>
    refine ⟨?_, ?_, ?_, ?_, ?_, ?_, rfl, rfl⟩ <;>
    simp [Task.start, Task.complete, Task.fail, Task.retry, Task.cancel, Task.queue,
      Task.canRetryCheck, TaskStatus.isWaiting, TaskStatus.isActive,
      TaskStatus.canRetry, TaskStatus.isTerminal, h1]

/-- C7 (witness): the amended statement at the concrete succeeded task. -/
theorem terminal_stability_amended_witness :
    (∃ e, succeededTask.start 3 = Except.error e) ∧
    (∃ e, succeededTask.complete [] 3 = Except.error e) ∧
    (∃ e, succeededTask.fail "boom" 3 = Except.error e) ∧
    (∃ e, succeededTask.retry 3 = Except.error e) ∧
    (∃ e, succeededTask.cancel 3 = Except.error e) ∧
    (∃ e, succeededTask.queue 3 = Except.error e) ∧
    (succeededTask.skip none 3).status.status = TaskStatusEnum.skipped ∧
    (succeededTask.timeoutOp 3).status.status = TaskStatusEnum.timeout :=
  terminal_stability_amended succeededTask rfl [] "boom" none 3

/-! ### Claim C9 — `RetryPolicy.calculate_delay` -/

/-- C9 (counterexample): `calculate_delay` returns 0 as soon as
`attempt ≥ max_retries`, so with the valid linear policy `linDropPolicy`
the delay of attempt 1 is below the delay of attempt 0, and with the valid
fixed policy `fixedZeroPolicy` attempt 0 does not get `initial_delay`. -/
theorem calculate_delay_counterexample :
    linDropPolicy.valid ∧ fixedZeroPolicy.valid ∧
    linDropPolicy.calculateDelay 1 < linDropPolicy.calculateDelay 0 ∧
    fixedZeroPolicy.calculateDelay 0 ≠ fixedZeroPolicy.initialDelay := by
  refine ⟨by decide, by decide, by decide, by decide⟩

/-- C9 (amended): restricted to attempts below `max_retries`,
`calculate_delay` is monotone non-decreasing and capped at `max_delay` for
the linear and exponential strategies, returns 0 for `none` and
`initial_delay` for `fixed`.  (For `attempt ≥ max_retries` it returns 0
regardless of strategy.) -/
theorem calculate_delay_amended (p : RetryPolicy) (hp : p.valid) (m n : Nat)
    (hmn : m ≤ n) (hn : (n : Int) < p.maxRetries) :
    ((p.strategy = RetryStrategyEnum.linear ∨
        p.strategy = RetryStrategyEnum.exponential) →
      p.calculateDelay m ≤ p.calculateDelay n ∧ p.calculateDelay n ≤ p.maxDelay) ∧
    (p.strategy = RetryStrategyEnum.none → p.calculateDelay n = 0) ∧
    (p.strategy = RetryStrategyEnum.fixed → p.calculateDelay n = p.initialDelay) := by
  obtain ⟨hr, hi, hmax, hb⟩ := hp
  have hm : (m : Int) < p.maxRetries :=
    lt_of_le_of_lt (by exact_mod_cast hmn) hn
  have hifn : ¬ p.maxRetries ≤ (n : Int) := not_le.mpr hn
  have hifm : ¬ p.maxRetries ≤ (m : Int) := not_le.mpr hm
  unfold RetryPolicy.calculateDelay
  rw [if_neg hifn, if_neg hifm]
  refine ⟨?_, ?_, ?_⟩
  · rintro (hs | hs) <;> rw [hs]
    · constructor
      · refine min_le_min (mul_le_mul_of_nonneg_left ?_ hi) (le_refl _)
        exact add_le_add_right (by exact_mod_cast hmn) 1
      · exact min_le_right _ _
    · constructor
      · refine min_le_min (mul_le_mul_of_nonneg_left ?_ hi) (le_refl _)
        exact pow_le_pow_right₀ hb hmn
      · exact min_le_right _ _
  · intro hs; rw [hs]
  · intro hs; rw [hs]

/-! ### Store-level helper lemmas -/

lemma getTask_saveTask (s : Store) (t : Task) (k : Nat) :
    (s.saveTask t).getTask k = if k = t.id then some t else s.getTask k := by
  unfold Store.saveTask Store.getTask
  exact lookupA_upsert s.tasks t.id t k

lemma saveWorkflow_tasks (s : Store) (w : Workflow) :
    (s.saveWorkflow w).tasks = s.tasks := rfl

lemma getTask_eq_of_tasks_eq {s1 s2 : Store} (h : s1.tasks = s2.tasks) (k : Nat) :
    s1.getTask k = s2.getTask k := by
  unfold Store.getTask
  rw [h]

lemma getWorkflow_saveWorkflow (s : Store) (w : Workflow) (wid : Nat) :
    (s.saveWorkflow w).getWorkflow wid =
      if wid = w.id
      then some { w with tasks := (s.taskRowsOf wid).map (fun t => (t.id, t)) }
      else s.getWorkflow wid := by
  unfold Store.saveWorkflow Store.getWorkflow Store.taskRowsOf
  rw [lookupA_upsert]
  by_cases h : wid = w.id
  · simp [h]
  · simp [h]

lemma queue_ok_fields {t t2 : Task} {now : Nat} (h : t.queue now = Except.ok t2) :
    t2.status.status = TaskStatusEnum.queued ∧ t2.id = t.id := by
  unfold Task.queue at h
  by_cases hg : t.status.status = TaskStatusEnum.pending
  · rw [if_neg (not_not_intro hg)] at h
    cases h
    exact ⟨rfl, rfl⟩
  · rw [if_pos hg] at h
    cases h

lemma complete_ok_fields {t t2 : Task} {r : PyDict} {now : Nat}
    (h : t.complete r now = Except.ok t2) :
    t2.status.status = TaskStatusEnum.succeeded ∧ t2.id = t.id := by
  unfold Task.complete at h
  by_cases hg : t.status.isActive
  · rw [if_neg (not_not_intro hg)] at h
    cases h
    exact ⟨rfl, rfl⟩
  · rw [if_pos hg] at h
    cases h

lemma complete_error_not_active {t : Task} {r : PyDict} {now : Nat} {e : PyError}
    (h : t.complete r now = Except.error e) : t.status.isActive = false := by
  unfold Task.complete at h
  by_cases hg : t.status.isActive
  · rw [if_neg (not_not_intro hg)] at h
    cases h
  · exact Bool.not_eq_true _ ▸ hg

lemma complete_not_active {t : Task} (r : PyDict) (now : Nat)
    (h : t.status.isActive = false) :
    t.complete r now =
      Except.error (PyError.invalidEntityStateError "Cannot complete task in this state") := by
  unfold Task.complete
  rw [if_pos]
  rw [h]
  simp

/-- After `queueAll`, every task row is either untouched or holds a task in
status `queued`. -/
lemma queueAll_getTask (now : Nat) :
    ∀ (l : List Task) (s : Store) (k : Nat),
      (WorkflowOrchestrator.queueAll now l s).2.getTask k = s.getTask k ∨
      ∃ u, (WorkflowOrchestrator.queueAll now l s).2.getTask k = some u ∧
        u.status.status = TaskStatusEnum.queued := by
  intro l
  induction l with
  | nil => intro s k; exact Or.inl rfl
  | cons t rest ih =>
      intro s k
      simp only [WorkflowOrchestrator.queueAll]
      cases hq : t.queue now with
      | error e => exact Or.inl rfl
      | ok t2 =>
          rcases ih (s.saveTask t2) k with h | h
          · rw [h, getTask_saveTask]
            by_cases hk : k = t2.id
            · exact Or.inr ⟨t2, if_pos hk, (queue_ok_fields hq).1⟩
            · exact Or.inl (if_neg hk)
          · exact Or.inr h

/-- `_check_workflow_completion` writes only the workflow row. -/
lemma check_tasks_unchanged (wid now : Nat) (s : Store) :
    (WorkflowOrchestrator.checkWorkflowCompletion wid now s).2.tasks = s.tasks := by
  unfold WorkflowOrchestrator.checkWorkflowCompletion
  cases hw : s.getWorkflow wid with
  | none => rfl
  | some wf =>
      by_cases h1 : wf.taskValues.isEmpty = true
      · simp [h1]
      · simp only [h1, Bool.false_eq_true, if_false]
        by_cases h2 : wf.taskValues.all (fun t => t.status.isTerminal) = true
        · simp only [h2, not_true, if_false, if_neg]
          by_cases h3 :
              wf.taskValues.all (fun t => t.status.status = TaskStatusEnum.succeeded) = true
          · simp only [h3, if_true]
            cases hc : wf.complete now with
            | error e => simp
            | ok wf2 => exact saveWorkflow_tasks s wf2
          · simp only [h3, Bool.false_eq_true, if_false]
            exact saveWorkflow_tasks s _
        · simp [h2]

/-- C9 (witness): the amended statement at the default exponential policy,
attempts 1 ≤ 2 < 5. -/
theorem calculate_delay_amended_witness :
    ((({} : RetryPolicy).strategy = RetryStrategyEnum.linear ∨
        ({} : RetryPolicy).strategy = RetryStrategyEnum.exponential) →
      ({} : RetryPolicy).calculateDelay 1 ≤ ({} : RetryPolicy).calculateDelay 2 ∧
        ({} : RetryPolicy).calculateDelay 2 ≤ ({} : RetryPolicy).maxDelay) ∧
    (({} : RetryPolicy).strategy = RetryStrategyEnum.none →
      ({} : RetryPolicy).calculateDelay 2 = 0) ∧
    (({} : RetryPolicy).strategy = RetryStrategyEnum.fixed →
      ({} : RetryPolicy).calculateDelay 2 = ({} : RetryPolicy).initialDelay) :=
  calculate_delay_amended {} (by decide) 1 2 (by decide) (by decide)

/-! ### Claim C10 — the completion check on non-failed, non-succeeded sets -/

/-- C10: when every task of the loaded workflow is terminal, not all of
them succeeded and none has status `failed`, the completion check persists
the workflow as failed with message `"Unknown error"`; and a workflow with
a skipped task is never marked succeeded by the check. -/
theorem completion_check_spec (s : Store) (wid now : Nat) (wf : Workflow)
    (hw : s.getWorkflow wid = some wf) :
    ((wf.taskValues ≠ []) →
      (∀ t ∈ wf.taskValues, t.status.isTerminal = true) →
      (¬ ∀ t ∈ wf.taskValues, t.status.status = TaskStatusEnum.succeeded) →
      (∀ t ∈ wf.taskValues, t.status.status ≠ TaskStatusEnum.failed) →
      WorkflowOrchestrator.checkWorkflowCompletion wid now s =
        (Except.ok (), s.saveWorkflow
          { wf with
            status := { status := WorkflowStatusEnum.failed, updatedAt := now,
                        message := some "Unknown error" },
            completedAt := some now })) ∧
    ((∃ t ∈ wf.taskValues, t.status.status = TaskStatusEnum.skipped) →
      wf.status.status ≠ WorkflowStatusEnum.succeeded →
      ∀ wf2, (WorkflowOrchestrator.checkWorkflowCompletion wid now s).2.getWorkflow wid
          = some wf2 → wf2.status.status ≠ WorkflowStatusEnum.succeeded) := by
  constructor
  · intro hne hterm hnotall hnofail
    unfold WorkflowOrchestrator.checkWorkflowCompletion
    rw [hw]
    have h1 : ¬ wf.taskValues.isEmpty = true := by
      simpa [List.isEmpty_iff] using hne
    have h2 : wf.taskValues.all (fun t => t.status.isTerminal) = true :=
      List.all_eq_true.mpr hterm
    have h3 : ¬ wf.taskValues.all
        (fun t => decide (t.status.status = TaskStatusEnum.succeeded)) = true := by
      intro hc
      exact hnotall (fun t ht => of_decide_eq_true (List.all_eq_true.mp hc t ht))
    have h4 : wf.taskValues.find?
        (fun t => decide (t.status.status = TaskStatusEnum.failed)) = none := by
      rw [List.find?_eq_none]
      intro t ht
      simpa using hnofail t ht
    simp only [h1, Bool.false_eq_true, if_false, h2, not_true, if_neg, h3, h4]
  · intro hskip hstat wf2 hwf2
    obtain ⟨t0, ht0, hsk⟩ := hskip
    unfold WorkflowOrchestrator.checkWorkflowCompletion at hwf2
    rw [hw] at hwf2
    have h1 : ¬ wf.taskValues.isEmpty = true := by
      simp only [List.isEmpty_iff]
      intro hc
      rw [hc] at ht0
      cases ht0
    have h3 : ¬ wf.taskValues.all
        (fun t => decide (t.status.status = TaskStatusEnum.succeeded)) = true := by
      intro hc
      have := of_decide_eq_true (List.all_eq_true.mp hc t0 ht0)
      rw [hsk] at this
      cases this
    simp only [h1, Bool.false_eq_true, if_false] at hwf2
    by_cases h2 : wf.taskValues.all (fun t => t.status.isTerminal) = true
    · simp only [h2, not_true, if_neg, h3, Bool.false_eq_true, if_false] at hwf2
      rw [getWorkflow_saveWorkflow] at hwf2
      by_cases hid : wid = wf.id
      · rw [if_pos hid] at hwf2
        cases hwf2
        intro hc
        cases hc
      · rw [if_neg hid] at hwf2
        rw [hw] at hwf2
        cases hwf2
        exact hstat
    · have h2f : (wf.taskValues.all fun t => t.status.isTerminal) = false :=
        Bool.not_eq_true _ ▸ h2
      simp only [h2f, Bool.false_eq_true, not_false_iff, if_true] at hwf2
      rw [hw] at hwf2
      cases hwf2
      exact hstat

/-- C10 (witness): the completion check on `skippedStore` — one succeeded
task, one skipped task — marks the workflow failed with message
`"Unknown error"` and does not mark it succeeded. -/
theorem completion_check_spec_witness :
    WorkflowOrchestrator.checkWorkflowCompletion 0 9 skippedStore =
      (Except.ok (), skippedStore.saveWorkflow
        { skippedWorkflow with
          status := { status := WorkflowStatusEnum.failed, updatedAt := 9,
                      message := some "Unknown error" },
          completedAt := some 9 }) ∧
    ∀ wf2, (WorkflowOrchestrator.checkWorkflowCompletion 0 9 skippedStore).2.getWorkflow 0
        = some wf2 → wf2.status.status ≠ WorkflowStatusEnum.succeeded := by
  have h := completion_check_spec skippedStore 0 9 skippedWorkflow (by decide)
  exact ⟨h.1 (by decide) (by decide) (by decide) (by decide),
    h.2 ⟨sampleTask 1 0 [] TaskStatusEnum.skipped, by decide, rfl⟩ (by decide)⟩

/-! ### Claim C4 — duplicate completion delivery -/

/-- After `on_task_completed`, the row under the delivered task id is never
in an active status (it was either left alone in a non-active state,
overwritten with the succeeded task, or re-queued by the scheduler). -/
lemma onTaskCompleted_not_active (s : Store) (tid : Nat) (r : PyDict) (now : Nat)
    (hwf : ∀ p ∈ s.tasks, p.1 = p.2.id) :
    ∀ u, (WorkflowOrchestrator.onTaskCompleted tid r now s).2.getTask tid = some u →
      u.status.isActive = false := by
  intro u hu
  unfold WorkflowOrchestrator.onTaskCompleted at hu
  cases hg : s.getTask tid with
  | none =>
      simp only [hg] at hu
      cases hu
  | some task =>
      have hid : task.id = tid := (hwf (tid, task) (lookupA_mem hg)).symm
      simp only [hg] at hu
      cases hc : task.complete r now with
      | error e =>
          simp only [hc, hg] at hu
          cases hu
          exact complete_error_not_active hc
      | ok t2 =>
          obtain ⟨ht2s, ht2id⟩ := complete_ok_fields hc
          simp only [hc] at hu
          have hs1 : (s.saveTask t2).getTask tid = some t2 := by
            rw [getTask_saveTask, if_pos (by rw [ht2id, hid])]
          rcases hsch : WorkflowOrchestrator.scheduleDependentTasks t2.workflowId now
              (s.saveTask t2) with ⟨res, s2⟩
          have hs2 : s2.getTask tid = some t2 ∨
              ∃ v, s2.getTask tid = some v ∧ v.status.status = TaskStatusEnum.queued := by
            have := queueAll_getTask now ((s.saveTask t2).getReadyTasks t2.workflowId)
              (s.saveTask t2) tid
            unfold WorkflowOrchestrator.scheduleDependentTasks at hsch
            rw [hsch] at this
            rcases this with h | h
            · exact Or.inl (h.trans hs1)
            · exact Or.inr h
          rw [hsch] at hu
          cases res with
          | error e =>
              simp only [] at hu
              rcases hs2 with h | ⟨v, hv, hvq⟩
              · have huv : u = t2 := (Option.some.inj (h.symm.trans hu)).symm
                rw [huv]
                simp [TaskStatus.isActive, ht2s]
              · have huv : u = v := (Option.some.inj (hv.symm.trans hu)).symm
                rw [huv]
                simp [TaskStatus.isActive, hvq]
          | ok unitv =>
              simp only [] at hu
              rcases hck : WorkflowOrchestrator.checkWorkflowCompletion t2.workflowId now s2
                with ⟨res2, s3⟩
              rw [hck] at hu
              have htasks : s3.tasks = s2.tasks := by
                have := check_tasks_unchanged t2.workflowId now s2
                rw [hck] at this
                exact this
              have hget : s3.getTask tid = s2.getTask tid :=
                getTask_eq_of_tasks_eq htasks tid
              have hu3 : s2.getTask tid = some u := by
                cases res2 with
                | error e => simp only [] at hu; rw [← hget]; exact hu
                | ok uv => simp only [] at hu; rw [← hget]; exact hu
              rcases hs2 with h | ⟨v, hv, hvq⟩
              · have huv : u = t2 := (Option.some.inj (h.symm.trans hu3)).symm
                rw [huv]
                simp [TaskStatus.isActive, ht2s]
              · have huv : u = v := (Option.some.inj (hv.symm.trans hu3)).symm
                rw [huv]
                simp [TaskStatus.isActive, hvq]

/-- C4 (amended): delivering the same completion twice leaves the persisted
store exactly as after the first delivery, but the second delivery is
surfaced as an error (the guard violation is wrapped in
`WorkflowExecutionError` and re-raised, not swallowed). -/
lemma onTaskCompleted_of_getTask_none {s : Store} {tid : Nat} {r : PyDict}
    {now : Nat} (h : s.getTask tid = none) :
    WorkflowOrchestrator.onTaskCompleted tid r now s =
      (Except.error (PyError.workflowExecutionError "Task not found"), s) := by
  unfold WorkflowOrchestrator.onTaskCompleted
  simp only [h]

lemma onTaskCompleted_of_not_active {s : Store} {tid : Nat} {r : PyDict}
    {now : Nat} {u : Task} (h : s.getTask tid = some u)
    (ha : u.status.isActive = false) :
    WorkflowOrchestrator.onTaskCompleted tid r now s =
      (Except.error (PyError.workflowExecutionError "Failed to handle task completion"), s) := by
  unfold WorkflowOrchestrator.onTaskCompleted
  simp only [h, complete_not_active r now ha]

theorem duplicate_completion_idempotent (s : Store) (tid : Nat) (r : PyDict)
    (n1 n2 : Nat) (hwf : ∀ p ∈ s.tasks, p.1 = p.2.id) :
    (WorkflowOrchestrator.onTaskCompleted tid r n2
        (WorkflowOrchestrator.onTaskCompleted tid r n1 s).2).2 =
      (WorkflowOrchestrator.onTaskCompleted tid r n1 s).2 ∧
    ∃ e, (WorkflowOrchestrator.onTaskCompleted tid r n2
        (WorkflowOrchestrator.onTaskCompleted tid r n1 s).2).1 = Except.error e := by
  cases hg : (WorkflowOrchestrator.onTaskCompleted tid r n1 s).2.getTask tid with
  | none =>
      rw [onTaskCompleted_of_getTask_none hg]
      exact ⟨rfl, ⟨_, rfl⟩⟩
  | some u =>
      have hact : u.status.isActive = false :=
        onTaskCompleted_not_active s tid r n1 hwf u hg
      rw [onTaskCompleted_of_not_active hg hact]
      exact ⟨rfl, ⟨_, rfl⟩⟩

/-- C4 (counterexample): a completion callback for the already-succeeded
task of `doneTaskStore` raises `WorkflowExecutionError` — it is surfaced to
the caller, not treated as a benign no-op (the persisted state is
unchanged, though). -/
theorem duplicate_completion_counterexample :
    (WorkflowOrchestrator.onTaskCompleted 0 [] 5 doneTaskStore).1 =
      Except.error (PyError.workflowExecutionError "Failed to handle task completion") ∧
    (WorkflowOrchestrator.onTaskCompleted 0 [] 5 doneTaskStore).2 = doneTaskStore := by
  exact ⟨rfl, rfl⟩

/-! ### Claim C5 — scheduling while paused -/

/-- C5: on `pausedStore` the workflow is paused, yet
`_schedule_dependent_tasks` moves the ready pending task 1 from `pending`
to `queued` — the scheduler never consults the workflow status.  The
second half of the claim holds: `resume_workflow` re-runs the scheduler
and queues the task. -/
theorem schedule_ignores_paused :
    (pausedStore.getWorkflow 0).map (fun w => w.status.status) =
      some WorkflowStatusEnum.paused ∧
    (WorkflowOrchestrator.scheduleDependentTasks 0 9 pausedStore).1 = Except.ok () ∧
    ((WorkflowOrchestrator.scheduleDependentTasks 0 9 pausedStore).2.getTask 1).map
      (fun t => t.status.status) = some TaskStatusEnum.queued ∧
    ((WorkflowOrchestrator.scheduleDependentTasks 0 9 pausedStore).2.getWorkflow 0).map
      (fun w => w.status.status) = some WorkflowStatusEnum.paused ∧
    ((WorkflowOrchestrator.resumeWorkflow 0 9 pausedStore).2.getTask 1).map
      (fun t => t.status.status) = some TaskStatusEnum.queued := by
  exact ⟨rfl, rfl, rfl, rfl, rfl⟩

/-! ### Claim C2 — the create-workflow use case -/

/-- C2: for every input with at least one task config,
`CreateWorkflowUseCase.execute` raises `TypeError` — the `RetryPolicy`
constructor call in `_create_task_from_config` passes the keyword arguments
`enabled` and `backoff_max`, which the dataclass does not accept — and
nothing is persisted.  No `Task` is ever constructed and no validation
error is raised. -/
theorem create_workflow_type_error (name description : String) (cfg : TaskCfg)
    (rest : List TaskCfg) (mode : ExecutionModeEnum) (pwid : Option Nat)
    (md : PyDict) (newId now : Nat) (s : Store) :
    CreateWorkflowUseCase.execute name description (cfg :: rest) mode pwid md
        newId now s =
      (Except.error
        (PyError.typeError "RetryPolicy got an unexpected keyword argument enabled"),
       s) := rfl

/-! ### Claim C8 — the task-count bound -/

lemma mem_upsert {α : Type} {l : List (Nat × α)} {k : Nat} {v : α} {p : Nat × α}
    (h : p ∈ upsert l k v) : p ∈ l ∨ p = (k, v) := by
  induction l with
  | nil => simp [upsert] at h; exact Or.inr h
  | cons q rest ih =>
      by_cases hq : q.1 = k
      · simp only [upsert, hq, if_true] at h
        rcases List.mem_cons.mp h with h1 | h1
        · exact Or.inr h1
        · exact Or.inl (List.mem_cons.mpr (Or.inr h1))
      · simp only [upsert, hq, if_false] at h
        rcases List.mem_cons.mp h with h1 | h1
        · exact Or.inl (List.mem_cons.mpr (Or.inl h1))
        · rcases ih h1 with h2 | h2
          · exact Or.inl (List.mem_cons.mpr (Or.inr h2))
          · exact Or.inr h2

/-- A graph in which no node has dependencies passes the cycle check. -/
lemma cycleCheck_no_edges {g : List (Nat × List Nat)}
    (h : ∀ p ∈ g, p.2 = ([] : List Nat)) : cycleCheck g = false := by
  have hnc : ¬ HasCycle g := by
    rintro ⟨x, hx⟩
    obtain ⟨m, hxm, _⟩ := Relation.TransGen.head'_iff.mp hx
    unfold Edge adjOf at hxm
    cases hl : lookupA g x with
    | none => rw [hl] at hxm; simp at hxm
    | some deps =>
        rw [hl] at hxm
        have hdeps : deps = [] := h (x, deps) (lookupA_mem hl)
        rw [hdeps] at hxm
        simp at hxm
  cases hcc : cycleCheck g
  · rfl
  · exact absurd ((cycleCheck_iff g).mp hcc) hnc

lemma graphOfTasks_deps_nil :
    ∀ (ts : List Task) (acc : List (Nat × List Nat)),
      (∀ u ∈ ts, u.dependencies = []) → (∀ p ∈ acc, p.2 = ([] : List Nat)) →
      ∀ p ∈ ts.foldl (fun g u => upsert g u.id u.dependencies) acc,
        p.2 = ([] : List Nat) := by
  intro ts
  induction ts with
  | nil => intro acc _ hacc p hp; exact hacc p hp
  | cons u rest ih =>
      intro acc hts hacc p hp
      rw [List.foldl_cons] at hp
      refine ih _ (fun v hv => hts v (List.mem_cons_of_mem u hv)) ?_ p hp
      intro q hq
      rcases mem_upsert hq with h1 | h1
      · exact hacc q h1
      · rw [h1]
        exact hts u (List.mem_cons_self u rest)

/-- Every step of `depFreeWorkflow` succeeds: the workflow stays in draft,
the task keys are `0, …, n-1`, and no stored task has dependencies. -/
lemma depFreeWorkflow_spec : ∀ n, ∃ w, depFreeWorkflow n = Except.ok w ∧
    w.status.status = WorkflowStatusEnum.draft ∧ w.id = 0 ∧
    w.tasks.map Prod.fst = List.range n ∧
    (∀ p ∈ w.tasks, p.2.dependencies = []) := by
  intro n
  induction n with
  | zero => exact ⟨_, rfl, rfl, rfl, rfl, by simp [Workflow.mk0]⟩
  | succ n ih =>
      obtain ⟨w, hw, hst, hid, hkeys, hdeps⟩ := ih
      have hvals : ∀ u ∈ w.taskValues, u.dependencies = [] := by
        intro u hu
        obtain ⟨p, hp, hpu⟩ := List.mem_map.mp hu
        exact hpu ▸ hdeps p hp
      have hcc : w.createsCycle (freeTask n) = false := by
        apply cycleCheck_no_edges
        intro p hp
        unfold Workflow.graphWith Workflow.graph at hp
        rcases mem_upsert hp with h1 | h1
        · exact graphOfTasks_deps_nil w.taskValues [] hvals (by simp) p h1
        · rw [h1]
          rfl
      have hadd : w.addTask (freeTask n) =
          Except.ok { w with tasks := upsert w.tasks n (freeTask n) } := by
        unfold Workflow.addTask
        rw [if_neg (not_not_intro hst), if_neg (not_not_intro (show (freeTask n).workflowId = w.id by rw [hid]; rfl)),
          if_neg (by simp [hcc])]
        exact rfl
      have hnotmem : n ∉ w.tasks.map Prod.fst := by
        rw [hkeys]
        exact List.not_mem_range_self
      have htasks : upsert w.tasks n (freeTask n) = w.tasks ++ [(n, freeTask n)] :=
        upsert_of_not_mem _ hnotmem
      refine ⟨{ w with tasks := upsert w.tasks n (freeTask n) }, ?_, hst, hid, ?_, ?_⟩
      · simp only [depFreeWorkflow, hw, hadd]
      · rw [htasks, List.map_append, hkeys, List.range_succ]
        rfl
      · intro p hp
        rcases mem_upsert hp with h1 | h1
        · exact hdeps p h1
        · rw [h1]
          rfl

/-- C8: the size bound is not enforced — `MAX_TASKS_PER_WORKFLOW` is 1000,
yet `add_task` accepts a 1001st task: building a workflow by 1001
consecutive `add_task` calls succeeds and stores 1001 tasks. -/
theorem max_tasks_bound_not_enforced :
    MAX_TASKS_PER_WORKFLOW = 1000 ∧
    ∃ w, depFreeWorkflow (MAX_TASKS_PER_WORKFLOW + 1) = Except.ok w ∧
      w.tasks.length = MAX_TASKS_PER_WORKFLOW + 1 := by
  refine ⟨rfl, ?_⟩
  obtain ⟨w, hw, _, _, hkeys, _⟩ := depFreeWorkflow_spec (MAX_TASKS_PER_WORKFLOW + 1)
  refine ⟨w, hw, ?_⟩
  have hlen := congrArg List.length hkeys
  simpa using hlen

/-! ### Claim C6 — cycle rejection in `add_task` -/

/-- C6: in draft state with a matching workflow id, `add_task` fails with
`CircularDependencyError` exactly when the graph with the candidate task
overlaid has a cycle, inserts the task otherwise, and a successful insert
always leaves the stored dependency graph acyclic. -/
theorem add_task_cycle_iff (w : Workflow) (t : Task)
    (hd : w.status.status = WorkflowStatusEnum.draft) (hwid : t.workflowId = w.id)
    (hids : ∀ p ∈ w.tasks, p.1 = p.2.id) (hnd : (w.tasks.map Prod.fst).Nodup) :
    ((∃ msg, w.addTask t = Except.error (PyError.circularDependencyError msg)) ↔
        HasCycle (w.graphWith t)) ∧
    (¬ HasCycle (w.graphWith t) →
      w.addTask t = Except.ok { w with tasks := upsert w.tasks t.id t }) ∧
    (∀ w2, w.addTask t = Except.ok w2 → ¬ HasCycle w2.graph) := by
  have hg1 : ¬ (w.status.status ≠ WorkflowStatusEnum.draft) := not_not_intro hd
  have hg2 : ¬ (t.workflowId ≠ w.id) := not_not_intro hwid
  have hgraph2 : ∀ w2, w.addTask t = Except.ok w2 → w2.graph = w.graphWith t := by
    intro w2 h2
    unfold Workflow.addTask at h2
    rw [if_neg hg1, if_neg hg2] at h2
    by_cases hcc : w.createsCycle t
    · rw [if_pos hcc] at h2; cases h2
    · rw [if_neg hcc] at h2
      cases h2
      show Workflow.graphOfTasks ((upsert w.tasks t.id t).map Prod.snd)
        = w.graphWith t
      rw [graph_upsert_comm hids hnd]
      rfl
  refine ⟨⟨?_, ?_⟩, ?_, ?_⟩
  · rintro ⟨msg, hmsg⟩
    unfold Workflow.addTask at hmsg
    rw [if_neg hg1, if_neg hg2] at hmsg
    by_cases hcc : w.createsCycle t
    · exact (cycleCheck_iff (w.graphWith t)).mp hcc
    · rw [if_neg hcc] at hmsg; cases hmsg
  · intro hcy
    have hcc : w.createsCycle t = true := (cycleCheck_iff (w.graphWith t)).mpr hcy
    refine ⟨"Adding task would create circular dependency", ?_⟩
    unfold Workflow.addTask
    rw [if_neg hg1, if_neg hg2, if_pos hcc]
  · intro hncy
    have hcc : ¬ w.createsCycle t = true := by
      intro h
      exact hncy ((cycleCheck_iff (w.graphWith t)).mp h)
    unfold Workflow.addTask
    rw [if_neg hg1, if_neg hg2, if_neg hcc]
  · intro w2 h2
    rw [hgraph2 w2 h2]
    unfold Workflow.addTask at h2
    rw [if_neg hg1, if_neg hg2] at h2
    by_cases hcc : w.createsCycle t
    · rw [if_pos hcc] at h2; cases h2
    · intro hcy
      exact hcc ((cycleCheck_iff (w.graphWith t)).mpr hcy)

/-- C6 (witness): the theorem applied to the concrete two-task cycle
(`cycTaskB` closing the cycle against `cycTaskA`) and to the self-dependent
`selfDepTask`: both insertions are rejected with
`CircularDependencyError`. -/
theorem add_task_cycle_iff_witness :
    (∃ msg, cycWorkflow.addTask cycTaskB =
      Except.error (PyError.circularDependencyError msg)) ∧
    (∃ msg, emptyDraftWorkflow.addTask selfDepTask =
      Except.error (PyError.circularDependencyError msg)) := by
  constructor
  · refine (add_task_cycle_iff cycWorkflow cycTaskB rfl rfl (by decide)
      (by decide)).1.mpr ?_
    refine ⟨0, ?_⟩
    have e1 : Edge (cycWorkflow.graphWith cycTaskB) 0 1 := by
      show (1 : Nat) ∈ adjOf (cycWorkflow.graphWith cycTaskB) 0
      decide
    have e2 : Edge (cycWorkflow.graphWith cycTaskB) 1 0 := by
      show (0 : Nat) ∈ adjOf (cycWorkflow.graphWith cycTaskB) 1
      decide
    exact Relation.TransGen.head e1 (Relation.TransGen.single e2)
  · refine (add_task_cycle_iff emptyDraftWorkflow selfDepTask rfl rfl (by decide)
      (by decide)).1.mpr ?_
    refine ⟨5, ?_⟩
    have e1 : Edge (emptyDraftWorkflow.graphWith selfDepTask) 5 5 := by
      show (5 : Nat) ∈ adjOf (emptyDraftWorkflow.graphWith selfDepTask) 5
      decide
    exact Relation.TransGen.single e1

/-- C4 (witness): the amended statement at `runningTaskStore`. -/
theorem duplicate_completion_idempotent_witness :
    (WorkflowOrchestrator.onTaskCompleted 0 [] 6
        (WorkflowOrchestrator.onTaskCompleted 0 [] 5 runningTaskStore).2).2 =
      (WorkflowOrchestrator.onTaskCompleted 0 [] 5 runningTaskStore).2 ∧
    ∃ e, (WorkflowOrchestrator.onTaskCompleted 0 [] 6
        (WorkflowOrchestrator.onTaskCompleted 0 [] 5 runningTaskStore).2).1 =
      Except.error e :=
  duplicate_completion_idempotent runningTaskStore 0 [] 5 6 (by decide)

end Orchestration
